import Mathlib

/-! The complaint workflow of the HA2 backend.

A shallow embedding of `backend/routes/complaints.js`, `backend/utils/analyzeImage.js`
and `backend/models/Complaints.js`, and of three functions of the frontend: `applyFilters`
of `AuthorityDashboard.jsx`, the statistics of `StatisticsCards.jsx`, and `handleEdit` and
`handleSubmit` of `UserDashboard.jsx`.

Each route handler is a function from an environment, the state before the request and the
request to a `Result`: the response sent (if any), the state afterwards and the list of
images handed to the screening collaborator.

* The state is the complaint collection, the files on disk, the account collection and the
  source of fresh document identifiers.
* The environment holds everything the handler does not control: the clock, the outcome of
  each call to the screening service, and faults of the database and of the file system.
* A JavaScript exception is the `error` case of `Except String`, carrying `error.message`.
* Document identifiers are natural numbers; request parameters are well-formed identifiers.
* Scores are exact rationals: rounding of IEEE doubles is outside the model.
* A sequence of requests is a list of operations, each with its own environment; the two
  multipart routes run behind the upload middleware, which puts the files on disk.
-/

namespace HA2

/-! ## JSON values and the JavaScript operations the handlers apply to them -/

/-- A value produced by `response.json()`. An object is the association list of its own
properties (the first binding of a key is the one that counts). -/
inductive Json where
  | null
  | bool (b : Bool)
  | num (q : ℚ)
  | str (s : String)
  | arr (xs : List Json)
  | obj (kvs : List (String × Json))

/-- A JavaScript value read out of a JSON document; `none` is `undefined`. -/
abbrev JsVal := Option Json

/-- Property read `v.name` for one of the names used by the handler (`status`, `response`,
`output`, `ai_generated`, `image_similarity`, `score`): a `TypeError` on `undefined` and
`null`, the bound value on an object, `undefined` on every other value. -/
def getProp (v : JsVal) (name : String) : Except String JsVal :=
  match v with
  | none => .error "TypeError: Cannot read properties of undefined"
  | some .null => .error "TypeError: Cannot read properties of null"
  | some (.obj kvs) => .ok (kvs.lookup name)
  | some _ => .ok none

/-- Index read `v[0]`: a `TypeError` on `undefined` and `null`, the first element of an
array, the property `"0"` of an object, the first character of a string. -/
def getFirst (v : JsVal) : Except String JsVal :=
  match v with
  | none => .error "TypeError: Cannot read properties of undefined"
  | some .null => .error "TypeError: Cannot read properties of null"
  | some (.arr xs) => .ok xs.head?
  | some (.obj kvs) => .ok (kvs.lookup "0")
  | some (.str s) => .ok (s.data.head?.map fun c => Json.str (String.singleton c))
  | some _ => .ok none

/-- Optional chaining `v?.name`: `undefined` when `v` is `undefined` or `null`. -/
def optChain (v : JsVal) (name : String) : Except String JsVal :=
  match v with
  | none => .ok none
  | some .null => .ok none
  | some w => getProp (some w) name

/-- JavaScript truthiness of a value read from JSON. -/
def truthy : JsVal → Bool
  | none => false
  | some .null => false
  | some (.bool b) => b
  | some (.num q) => decide (q ≠ 0)
  | some (.str s) => decide (s ≠ "")
  | some (.arr _) => true
  | some (.obj _) => true

/-- The expression `v || 0`. -/
def orZero (v : JsVal) : JsVal :=
  if truthy v then v else some (.num 0)

/-- The comparison `v > t` against a number literal `t`. Numbers compare by value, booleans
as 0 and 1, `null` as 0; `undefined` and plain objects convert to `NaN`, so the comparison
is false. For strings and arrays the result of the conversion to a number is supplied by
`loose`. -/
def greaterThan (loose : Json → ℚ → Bool) (v : JsVal) (t : ℚ) : Bool :=
  match v with
  | none => false
  | some .null => decide ((0 : ℚ) > t)
  | some (.bool b) => decide ((if b then (1 : ℚ) else 0) > t)
  | some (.num q) => decide (q > t)
  | some (.str s) => loose (.str s) t
  | some (.arr xs) => loose (.arr xs) t
  | some (.obj _) => false

/-- Lines 34-36 of `routes/complaints.js`: the two scores read from the service's answer,
`aiResponse.status[0].response.output[0]` followed by `output.ai_generated?.score || 0` and
`output.image_similarity?.score || 0`. An `error` is the `TypeError` thrown on the way. -/
def readScores (aiResponse : Json) : Except String (JsVal × JsVal) := do
  let status ← getProp (some aiResponse) "status"
  let first ← getFirst status
  let response ← getProp first "response"
  let outputs ← getProp response "output"
  let output ← getFirst outputs
  let aiGenerated ← getProp output "ai_generated"
  let aiScore := orZero (← optChain aiGenerated "score")
  let imageSimilarity ← getProp output "image_similarity"
  let similarity := orZero (← optChain imageSimilarity "score")
  pure (aiScore, similarity)

/-! ## Documents, state and environment -/

/-- A document of the `Complaint` collection (`models/Complaints.js`, with the two
timestamps added by `timestamps: true`). -/
structure Complaint where
  _id : Nat
  title : String
  description : String
  category : String
  status : String
  location : String
  images : List String
  user : Nat
  assignedTo : Option Nat
  priority : String
  createdAt : Nat
  updatedAt : Nat
deriving DecidableEq, Repr

/-- An account of the `User` collection. -/
structure User where
  _id : Nat
  name : String
  email : String
  role : String
deriving DecidableEq, Repr

/-- Files on disk, by path. -/
abbrev Storage := List String

/-- The state the handlers read and write. -/
structure State where
  complaints : List Complaint
  storage : Storage
  users : List User
  nextId : Nat
deriving DecidableEq, Repr

/-- The database calls made by the handlers. -/
inductive DbOp where
  | create
  | findById
  | findOne
  | find
  | findByIdAndUpdate
  | findByIdAndDelete
  | save
deriving DecidableEq, Repr

/-- What a handler does not control. -/
structure Env where
  /-- The clock reading used for `createdAt` and `updatedAt`. -/
  now : Nat
  /-- The outcome of `analyzeImage(path)`: the parsed JSON answer, or the message of the
  error with which the call rejects. -/
  analyzeImage : String → Except String Json
  /-- The result of `v > t` when `v` is a string or an array. -/
  looseGreater : Json → ℚ → Bool
  /-- A database call that rejects, with its error message. -/
  dbFault : DbOp → Option String
  /-- A file that exists but cannot be deleted, with the error message. -/
  unlinkFault : String → Option String

/-- The enumerations of the schema. -/
def categoryValues : List String :=
  ["Infrastructure", "Sanitation", "Security", "Electrical", "Water", "Other"]

def statusValues : List String := ["Pending", "In Progress", "Resolved"]

def priorityValues : List String := ["Low", "Medium", "High"]

/-! ## File system -/

/-- The call `fs.existsSync(p)`. -/
def existsSync (fs : Storage) (p : String) : Bool := decide (p ∈ fs)

/-- The call `fs.unlinkSync(p)`: throws when the file is absent or cannot be deleted. -/
def unlinkSync (env : Env) (fs : Storage) (p : String) : Except String Storage :=
  if p ∈ fs then
    match env.unlinkFault p with
    | some e => .error e
    | none => .ok (fs.filter fun q => q ≠ p)
  else .error "ENOENT: no such file or directory"

/-- A file received by the upload middleware: where it was stored and under which name. -/
structure UploadedFile where
  path : String
  filename : String
deriving DecidableEq, Repr

/-- The statement `files.forEach(file => fs.unlinkSync(file.path))`: the files on disk when
the loop ends, and the error that ended it early, if any. -/
def unlinkEach (env : Env) (fs : Storage) : List UploadedFile → Storage × Option String
  | [] => (fs, none)
  | file :: rest =>
    match unlinkSync env fs file.path with
    | .ok fs' => unlinkEach env fs' rest
    | .error e => (fs, some e)

/-- The path `path.join(__dirname, '../public/uploads', imageName)` of a stored image
(relative to the backend directory; names are taken as plain file names, the
normalisation done by `path.join` is not modelled). -/
def uploadPath (imageName : String) : String := "public/uploads/" ++ imageName

/-- The loop `images.forEach(imageName => ...)` of the delete route: each image whose file
exists is unlinked; an error ends the loop. -/
def unlinkExisting (env : Env) (fs : Storage) : List String → Storage × Option String
  | [] => (fs, none)
  | imageName :: rest =>
    if existsSync fs (uploadPath imageName) then
      match unlinkSync env fs (uploadPath imageName) with
      | .ok fs' => unlinkExisting env fs' rest
      | .error e => (fs, some e)
    else unlinkExisting env fs rest

/-! ## Database calls -/

/-- The owner of a complaint after `.populate('user', 'name email')`. -/
structure Owner where
  _id : Nat
  name : String
  email : String
deriving DecidableEq, Repr

/-- A complaint with its owner expanded; `user` is `null` (`none`) when the account no
longer exists. -/
structure PopulatedComplaint where
  doc : Complaint
  user : Option Owner
deriving DecidableEq, Repr

/-- The call `.populate('user', 'name email')`. -/
def populate (st : State) (c : Complaint) : PopulatedComplaint :=
  { doc := c
    user := (st.users.find? fun u => u._id == c.user).map fun u => ⟨u._id, u.name, u.email⟩ }

/-- The argument of `Complaint.create` in the create route; a field of the multipart body
is a string or missing. -/
structure NewComplaint where
  title : Option String
  description : Option String
  category : Option String
  location : Option String
  images : List String
  user : Nat
deriving DecidableEq, Repr

/-- The validator `required: true` of a string path: the value is present and not empty. -/
def requiredString : Option String → Bool
  | some s => decide (s ≠ "")
  | none => false

/-- Schema validation of a new document: `title`, `description`, `category` and `location`
are required and `category` is one of its enumerated values (`user` is always supplied by
the route). -/
def validNew (d : NewComplaint) : Bool :=
  requiredString d.title && requiredString d.description && requiredString d.category &&
    (match d.category with
      | some c => decide (c ∈ categoryValues)
      | none => false) &&
    requiredString d.location

/-- The call `Complaint.create(d)`: validates, then inserts a document with a fresh
identifier, the schema defaults (`status` Pending, `priority` Medium, no `assignedTo`) and
both timestamps set to the current time. -/
def Complaint.create (env : Env) (st : State) (d : NewComplaint) :
    Except String (Complaint × State) :=
  if validNew d then
    match env.dbFault .create with
    | some e => .error e
    | none =>
      let c : Complaint :=
        { _id := st.nextId
          title := d.title.getD ""
          description := d.description.getD ""
          category := d.category.getD ""
          status := "Pending"
          location := d.location.getD ""
          images := d.images
          user := d.user
          assignedTo := none
          priority := "Medium"
          createdAt := env.now
          updatedAt := env.now }
      .ok (c, { st with complaints := st.complaints ++ [c], nextId := st.nextId + 1 })
  else .error "Complaint validation failed"

/-- The call `Complaint.findById(id)`. -/
def Complaint.findById (env : Env) (st : State) (id : Nat) : Except String (Option Complaint) :=
  match env.dbFault .findById with
  | some e => .error e
  | none => .ok (st.complaints.find? fun c => c._id == id)

/-- The call `Complaint.findOne` on the conditions `_id: id, user: uid`. -/
def Complaint.findOne (env : Env) (st : State) (id uid : Nat) :
    Except String (Option Complaint) :=
  match env.dbFault .findOne with
  | some e => .error e
  | none => .ok (st.complaints.find? fun c => c._id == id && c.user == uid)

/-- The collection with the first document of identifier `id` replaced by `c'`. -/
def replaceById (id : Nat) (c' : Complaint) : List Complaint → List Complaint
  | [] => []
  | c :: cs => if c._id == id then c' :: cs else c :: replaceById id c' cs

/-- The collection without the first document of identifier `id`. -/
def removeById (id : Nat) : List Complaint → List Complaint
  | [] => []
  | c :: cs => if c._id == id then cs else c :: removeById id cs

/-- The call `Complaint.findByIdAndUpdate(id, update)` with option `new: true`: no validators
run; the document after the update is returned, `null` when there is none; `updatedAt` is
refreshed. -/
def Complaint.findByIdAndUpdate (env : Env) (st : State) (id : Nat)
    (update : Complaint → Complaint) : Except String (Option Complaint × State) :=
  match env.dbFault .findByIdAndUpdate with
  | some e => .error e
  | none =>
    match st.complaints.find? fun c => c._id == id with
    | none => .ok (none, st)
    | some c =>
      let c' := { update c with updatedAt := env.now }
      .ok (some c', { st with complaints := replaceById id c' st.complaints })

/-- The call `Complaint.findByIdAndDelete(id)`. -/
def Complaint.findByIdAndDelete (env : Env) (st : State) (id : Nat) : Except String State :=
  match env.dbFault .findByIdAndDelete with
  | some e => .error e
  | none => .ok { st with complaints := removeById id st.complaints }

/-- The call `complaint.save()` after `complaint.images` was assigned: the stored document
takes the new image list; `updatedAt` is refreshed when the list changed. -/
def Complaint.save (env : Env) (st : State) (c : Complaint) (images : List String) :
    Except String (Complaint × State) :=
  match env.dbFault .save with
  | some e => .error e
  | none =>
    let c' := if images = c.images then c else { c with images := images, updatedAt := env.now }
    .ok (c', { st with complaints := replaceById c._id c' st.complaints })

/-- The order `.sort` on `createdAt: -1`: newest first (documents created at the same
time keep their order in the collection). -/
def sortNewestFirst (cs : List Complaint) : List Complaint :=
  cs.insertionSort fun a b => a.createdAt ≥ b.createdAt

/-- The call `Complaint.find(filter).populate('user', 'name email').sort(...)`. -/
def Complaint.find (env : Env) (st : State) (filter : Complaint → Bool) :
    Except String (List PopulatedComplaint) :=
  match env.dbFault .find with
  | some e => .error e
  | none => .ok ((sortNewestFirst (st.complaints.filter filter)).map (populate st))

/-! ## Responses -/

/-- The JSON body of a response. -/
inductive ResBody where
  /-- The body with the one field `message`. -/
  | message (message : String)
  /-- The body with the fields `success: false` and `message`. -/
  | failure (message : String)
  /-- A populated complaint, or `null`. -/
  | complaint (c : Option PopulatedComplaint)
  /-- A list of populated complaints. -/
  | complaints (cs : List PopulatedComplaint)
  /-- The body with the fields `message` and `complaint` of the image deletion. -/
  | imageDeleted (message : String) (complaint : Option PopulatedComplaint)
deriving DecidableEq, Repr

/-- An HTTP response. -/
structure Response where
  status : Nat
  body : ResBody
deriving DecidableEq, Repr

/-- What a handler did: the response it sent (`none` when it ended with an uncaught
exception before sending one), the state it left, and the paths it passed to
`analyzeImage`, in call order. -/
structure Result where
  response : Option Response
  state : State
  analysed : List String
deriving DecidableEq, Repr

/-! ## The create route: `router.post('/')` -/

/-- The text fields of a request body; the routes read some of them and ignore the rest. -/
structure Body where
  title : Option String
  description : Option String
  category : Option String
  location : Option String
  coordinates : Option String
  status : Option String
  priority : Option String
  user : Option String
  assignedTo : Option String
deriving DecidableEq, Repr

/-- A request to create a complaint, as the handler sees it after the `protect`,
`authorize` and `upload` middlewares: `files` is `req.files` (`none` when the property is
missing) and `user` is `req.user._id`. -/
structure CreateRequest where
  files : Option (List UploadedFile)
  body : Body
  user : Nat
deriving DecidableEq, Repr

/-- The literal `0.75` of line 40. -/
def aiThreshold : ℚ := mkRat 3 4

/-- The literal `0.7` of line 48. -/
def similarityThreshold : ℚ := mkRat 7 10

def aiGeneratedMessage : String :=
  "This image appears to be AI-generated. Please upload a real photo."

def plagiarizedMessage : String :=
  "This image seems taken from the internet. Please upload an original image."

/-- How the loop `for (const file of req.files)` ends. -/
inductive Screening where
  /-- A `return res.status(400)` from inside the loop, after the image was unlinked. -/
  | rejected (storage : Storage) (message : String)
  /-- The call `analyzeImage` rejected: control passes to the outer `catch`. -/
  | threw (error : String)
  /-- The loop ran through all files. -/
  | passed
deriving DecidableEq, Repr

/-- The loop `for (const file of req.files)` of lines 29-58, together with the paths given
to `analyzeImage`. The call to `analyzeImage` is outside the inner `try`; whatever is thrown
inside the inner `try` (reading the scores, `fs.unlinkSync`) is logged and the loop goes on
with the next file. -/
def screenImages (env : Env) (fs : Storage) : List UploadedFile → Screening × List String
  | [] => (.passed, [])
  | file :: rest =>
    match env.analyzeImage file.path with
    | .error e => (.threw e, [file.path])
    | .ok aiResponse =>
      let next := screenImages env fs rest
      match readScores aiResponse with
      | .error _ => (next.1, file.path :: next.2)
      | .ok (aiScore, similarity) =>
        if greaterThan env.looseGreater aiScore aiThreshold then
          match unlinkSync env fs file.path with
          | .ok fs' => (.rejected fs' aiGeneratedMessage, [file.path])
          | .error _ => (next.1, file.path :: next.2)
        else if greaterThan env.looseGreater similarity similarityThreshold then
          match unlinkSync env fs file.path with
          | .ok fs' => (.rejected fs' plagiarizedMessage, [file.path])
          | .error _ => (next.1, file.path :: next.2)
        else (next.1, file.path :: next.2)

/-- The `catch` block of the create and update routes (lines 75-81 and 119-123): unlink
every uploaded file, then answer 400 with the message of the error. When an unlink throws,
the exception leaves the handler and no response is sent. -/
def cleanupCatch (env : Env) (st : State) (files : Option (List UploadedFile))
    (error : String) (analysed : List String) : Result :=
  match files with
  | none => { response := some ⟨400, .message error⟩, state := st, analysed := analysed }
  | some fl =>
    match unlinkEach env st.storage fl with
    | (fs', none) =>
      { response := some ⟨400, .message error⟩, state := { st with storage := fs' },
        analysed := analysed }
    | (fs', some _) =>
      { response := none, state := { st with storage := fs' }, analysed := analysed }

/-- The handler of `POST /` (lines 19-82). -/
def createComplaint (env : Env) (st : State) (req : CreateRequest) : Result :=
  match req.files with
  | none => { response := some ⟨400, .message "Image required"⟩, state := st, analysed := [] }
  | some files =>
    if files.length = 0 then
      { response := some ⟨400, .message "Image required"⟩, state := st, analysed := [] }
    else
      match screenImages env st.storage files with
      | (.rejected fs' message, analysed) =>
        { response := some ⟨400, .failure message⟩, state := { st with storage := fs' },
          analysed := analysed }
      | (.threw e, analysed) => cleanupCatch env st req.files e analysed
      | (.passed, analysed) =>
        let imagePaths := files.map fun f => f.filename
        match Complaint.create env st
            { title := req.body.title, description := req.body.description,
              category := req.body.category, location := req.body.location,
              images := imagePaths, user := req.user } with
        | .error e => cleanupCatch env st req.files e analysed
        | .ok (complaint, st') =>
          match Complaint.findById env st' complaint._id with
          | .error e => cleanupCatch env st' req.files e analysed
          | .ok found =>
            { response := some ⟨201, .complaint (found.map (populate st'))⟩, state := st',
              analysed := analysed }

/-! ## The update route: `router.put('/:id')` -/

/-- A request to update a complaint: `id` is `req.params.id`, `user` is `req.user._id`. -/
structure UpdateRequest where
  id : Nat
  files : Option (List UploadedFile)
  body : Body
  user : Nat
deriving DecidableEq, Repr

/-- The update document of lines 108-114; a field that is `undefined` is left out of the
update, so the stored value stays. -/
def updateFields (body : Body) (imagePaths : List String) (c : Complaint) : Complaint :=
  { c with
    title := body.title.getD c.title
    description := body.description.getD c.description
    category := body.category.getD c.category
    location := body.location.getD c.location
    images := imagePaths }

/-- The handler of `PUT /:id` (lines 88-124). -/
def updateComplaint (env : Env) (st : State) (req : UpdateRequest) : Result :=
  match Complaint.findOne env st req.id req.user with
  | .error e => cleanupCatch env st req.files e []
  | .ok none =>
    { response := some ⟨404, .message "Complaint not found"⟩, state := st, analysed := [] }
  | .ok (some complaint) =>
    let imagePaths :=
      match req.files with
      | some files =>
        if files.length > 0 then complaint.images ++ files.map fun f => f.filename
        else complaint.images
      | none => complaint.images
    match Complaint.findByIdAndUpdate env st req.id (updateFields req.body imagePaths) with
    | .error e => cleanupCatch env st req.files e []
    | .ok (updated, st') =>
      { response := some ⟨200, .complaint (updated.map (populate st'))⟩, state := st',
        analysed := [] }

/-! ## The image deletion route: `router.delete('/:id/images/:imageName')` -/

structure DeleteImageRequest where
  id : Nat
  imageName : String
  user : Nat
deriving DecidableEq, Repr

/-- The handler of `DELETE /:id/images/:imageName` (lines 129-151). -/
def deleteImage (env : Env) (st : State) (req : DeleteImageRequest) : Result :=
  match Complaint.findOne env st req.id req.user with
  | .error e => { response := some ⟨400, .message e⟩, state := st, analysed := [] }
  | .ok none =>
    { response := some ⟨404, .message "Complaint not found"⟩, state := st, analysed := [] }
  | .ok (some complaint) =>
    match Complaint.save env st complaint
        (complaint.images.filter fun img => img ≠ req.imageName) with
    | .error e => { response := some ⟨400, .message e⟩, state := st, analysed := [] }
    | .ok (saved, st₁) =>
      let imagePath := uploadPath req.imageName
      let unlinked : Except String Storage :=
        if existsSync st₁.storage imagePath then unlinkSync env st₁.storage imagePath
        else .ok st₁.storage
      match unlinked with
      | .error e => { response := some ⟨400, .message e⟩, state := st₁, analysed := [] }
      | .ok fs' =>
        let st₂ := { st₁ with storage := fs' }
        match Complaint.findById env st₂ saved._id with
        | .error e => { response := some ⟨400, .message e⟩, state := st₂, analysed := [] }
        | .ok found =>
          { response :=
              some ⟨200, .imageDeleted "Image deleted successfully" (found.map (populate st₂))⟩,
            state := st₂, analysed := [] }

/-! ## The authority routes: priority, status and the full list -/

/-- A request of an authority on one complaint; `body` is the JSON body. -/
structure AuthorityRequest where
  id : Nat
  body : Body
  user : Nat
deriving DecidableEq, Repr

/-- The handler of `PUT /:id/priority` (lines 156-170). -/
def updatePriority (env : Env) (st : State) (req : AuthorityRequest) : Result :=
  match Complaint.findByIdAndUpdate env st req.id
      (fun c => { c with priority := req.body.priority.getD c.priority }) with
  | .error e => { response := some ⟨400, .message e⟩, state := st, analysed := [] }
  | .ok (none, st') =>
    { response := some ⟨404, .message "Complaint not found"⟩, state := st', analysed := [] }
  | .ok (some complaint, st') =>
    { response := some ⟨200, .complaint (some (populate st' complaint))⟩, state := st',
      analysed := [] }

/-- The handler of `PUT /:id/status` (lines 209-226). -/
def updateStatus (env : Env) (st : State) (req : AuthorityRequest) : Result :=
  match Complaint.findByIdAndUpdate env st req.id
      (fun c => { c with status := req.body.status.getD c.status, assignedTo := some req.user })
      with
  | .error e => { response := some ⟨400, .message e⟩, state := st, analysed := [] }
  | .ok (none, st') =>
    { response := some ⟨404, .message "Complaint not found"⟩, state := st', analysed := [] }
  | .ok (some complaint, st') =>
    { response := some ⟨200, .complaint (some (populate st' complaint))⟩, state := st',
      analysed := [] }

/-- The query string of `GET /`: each parameter is a string (possibly empty) or missing. -/
structure ListQuery where
  status : Option String
  category : Option String
  priority : Option String
deriving DecidableEq, Repr

/-- The test `if (v)` on a query parameter: true for a string that is not empty. -/
def given : Option String → Bool
  | some s => decide (s ≠ "")
  | none => false

/-- The object `filter` built in lines 192-195: a field is set only when its parameter
passes the test `if (v)`. -/
structure Filter where
  status : Option String
  category : Option String
  priority : Option String
deriving DecidableEq, Repr

def buildFilter (q : ListQuery) : Filter :=
  { status := if given q.status then q.status else none
    category := if given q.category then q.category else none
    priority := if given q.priority then q.priority else none }

/-- A document matches a filter when it equals the filter on every field the filter has. -/
def Filter.matches (f : Filter) (c : Complaint) : Bool :=
  (match f.status with
    | some s => c.status == s
    | none => true) &&
  (match f.category with
    | some s => c.category == s
    | none => true) &&
  (match f.priority with
    | some s => c.priority == s
    | none => true)

/-- The handler of `GET /` (lines 189-204). -/
def listAllComplaints (env : Env) (st : State) (q : ListQuery) : Result :=
  match Complaint.find env st (buildFilter q).matches with
  | .error e => { response := some ⟨400, .message e⟩, state := st, analysed := [] }
  | .ok complaints =>
    { response := some ⟨200, .complaints complaints⟩, state := st, analysed := [] }

/-! ## The owner routes: own list and deletion -/

/-- The handler of `GET /my-complaints` (lines 175-184); `user` is `req.user._id`. -/
def listMyComplaints (env : Env) (st : State) (user : Nat) : Result :=
  match Complaint.find env st (fun c => c.user == user) with
  | .error e => { response := some ⟨400, .message e⟩, state := st, analysed := [] }
  | .ok complaints =>
    { response := some ⟨200, .complaints complaints⟩, state := st, analysed := [] }

structure DeleteRequest where
  id : Nat
  user : Nat
deriving DecidableEq, Repr

/-- The handler of `DELETE /:id` (lines 231-253). -/
def deleteComplaint (env : Env) (st : State) (req : DeleteRequest) : Result :=
  match Complaint.findOne env st req.id req.user with
  | .error e => { response := some ⟨400, .message e⟩, state := st, analysed := [] }
  | .ok none =>
    { response := some ⟨404, .message "Complaint not found"⟩, state := st, analysed := [] }
  | .ok (some complaint) =>
    match unlinkExisting env st.storage complaint.images with
    | (fs', some e) =>
      { response := some ⟨400, .message e⟩, state := { st with storage := fs' },
        analysed := [] }
    | (fs', none) =>
      match Complaint.findByIdAndDelete env { st with storage := fs' } req.id with
      | .error e =>
        { response := some ⟨400, .message e⟩, state := { st with storage := fs' },
          analysed := [] }
      | .ok st' =>
        { response := some ⟨200, .message "Complaint deleted successfully"⟩, state := st',
          analysed := [] }

/-! ## The frontend: `AuthorityDashboard.jsx`, `StatisticsCards.jsx`, `UserDashboard.jsx` -/

/-- The JavaScript library functions the components call, which the model does not
compute. -/
structure JsLib where
  /-- The method `s.toLowerCase()`. -/
  toLowerCase : String → String
  /-- The method `s.includes(t)`. -/
  includes : String → String → Bool
  /-- The method `s.trim()`. -/
  trim : String → String
  /-- The function `JSON.parse`; an `error` when it throws. -/
  jsonParse : String → Except String Json
  /-- The function `JSON.stringify`. -/
  jsonStringify : JsVal → String
  /-- The rounding of an exact result to the nearest double. -/
  toDouble : ℚ → ℚ

/-- The state `filters` of `AuthorityDashboard`. -/
structure DashboardFilters where
  status : String
  category : String
  priority : String
  dateRange : String
  search : String
deriving DecidableEq, Repr

/-- The function `applyFilters` of `AuthorityDashboard.jsx` (lines 35-61): the list it passes
to `setFilteredComplaints`. A filter value is applied when it is truthy, that is not the empty
string. In the search, `complaint.user?.name...` is `undefined` for a complaint without
owner. -/
def applyFilters (js : JsLib) (complaints : List PopulatedComplaint)
    (filters : DashboardFilters) : List PopulatedComplaint :=
  let filtered := complaints
  let filtered :=
    if filters.status ≠ "" then filtered.filter fun complaint => complaint.doc.status == filters.status
    else filtered
  let filtered :=
    if filters.category ≠ "" then
      filtered.filter fun complaint => complaint.doc.category == filters.category
    else filtered
  let filtered :=
    if filters.priority ≠ "" then
      filtered.filter fun complaint => complaint.doc.priority == filters.priority
    else filtered
  let filtered :=
    if filters.search ≠ "" then
      let searchTerm := js.toLowerCase filters.search
      filtered.filter fun complaint =>
        js.includes (js.toLowerCase complaint.doc.title) searchTerm ||
        js.includes (js.toLowerCase complaint.doc.description) searchTerm ||
        js.includes (js.toLowerCase complaint.doc.location) searchTerm ||
        (match complaint.user with
          | some user => js.includes (js.toLowerCase user.name) searchTerm
          | none => false)
    else filtered
  filtered

/-- The object `stats` of `StatisticsCards.jsx` (lines 4-11). -/
structure Stats where
  total : Nat
  pending : Nat
  inProgress : Nat
  resolved : Nat
  highPriority : Nat
  avgResolutionTime : String
deriving DecidableEq, Repr

def stats (complaints : List PopulatedComplaint) : Stats :=
  { total := complaints.length
    pending := (complaints.filter fun c => c.doc.status == "Pending").length
    inProgress := (complaints.filter fun c => c.doc.status == "In Progress").length
    resolved := (complaints.filter fun c => c.doc.status == "Resolved").length
    highPriority := (complaints.filter fun c => c.doc.priority == "High").length
    avgResolutionTime := "N/A" }

/-- A JavaScript number: `NaN`, `Infinity` or a finite value. -/
inductive JsNumber where
  | nan
  | infinity
  | finite (q : ℚ)

/-- The quotient `a / b` of two array lengths: `NaN` for 0/0, `Infinity` for a positive
number over 0, the rounded quotient otherwise. -/
def divide (js : JsLib) (a b : Nat) : JsNumber :=
  if b = 0 then (if a = 0 then .nan else .infinity)
  else .finite (js.toDouble ((a : ℚ) / (b : ℚ)))

/-- The product `x * 100`. -/
def timesHundred (js : JsLib) : JsNumber → JsNumber
  | .nan => .nan
  | .infinity => .infinity
  | .finite q => .finite (js.toDouble (q * 100))

/-- The text of `Math.round(x)` in a template string: `Math.round` keeps `NaN` and
`Infinity` and rounds a finite value to the nearest integer, halves upwards. -/
def roundedText : JsNumber → String
  | .nan => "NaN"
  | .infinity => "Infinity"
  | .finite q => toString ⌊q + 1 / 2⌋

/-- The value of the card `Resolution Rate` (line 61):
the text of `Math.round((stats.resolved / stats.total) * 100)` followed by a percent sign. -/
def resolutionRate (js : JsLib) (complaints : List PopulatedComplaint) : String :=
  roundedText (timesHundred js (divide js (stats complaints).resolved (stats complaints).total))
    ++ "%"

/-- The state `formData` of `UserDashboard`. -/
structure FormData where
  title : String
  description : String
  category : String
  location : String
  coordinates : JsVal

/-- A complaint object held by the client: the populated document and its property
`coordinates` (`undefined` when the object has none). -/
structure ClientComplaint where
  doc : PopulatedComplaint
  coordinates : JsVal

/-- A complaint as the backend returns it: the schema has no `coordinates` path, so the
object has no such property. -/
def received (p : PopulatedComplaint) : ClientComplaint :=
  { doc := p, coordinates := none }

/-- The state of `UserDashboard` that `handleEdit` and `handleSubmit` read or write. -/
structure UserDashboard where
  formData : FormData
  editingComplaint : Option ClientComplaint
  selectedImages : List String
  mapLocation : JsVal
  locationError : String
  showForm : Bool
  showMap : Bool
  loading : Bool

/-- The function `handleEdit` of `UserDashboard.jsx` (lines 230-258). -/
def handleEdit (js : JsLib) (s : UserDashboard) (complaint : ClientComplaint) : UserDashboard :=
  let coordinates : JsVal :=
    if truthy complaint.coordinates then
      match complaint.coordinates with
      | some (.str text) =>
        match js.jsonParse text with
        | .ok parsed => some parsed
        | .error _ => some .null
      | other => other
    else some .null
  { s with
    editingComplaint := some complaint
    formData :=
      { title := complaint.doc.doc.title
        description := complaint.doc.doc.description
        category := complaint.doc.doc.category
        location := complaint.doc.doc.location
        coordinates := coordinates }
    mapLocation := coordinates
    selectedImages := []
    locationError := ""
    showForm := true
    showMap := false }

/-- The multipart form `submitData` built by `handleSubmit`. -/
structure SubmitData where
  title : String
  description : String
  category : String
  location : String
  coordinates : String
  images : List String
deriving DecidableEq, Repr

/-- A request sent through `complaintsAPI`. -/
inductive ApiCall where
  | update (id : Nat) (data : SubmitData)
  | create (data : SubmitData)
deriving DecidableEq, Repr

/-- The function `handleSubmit` of `UserDashboard.jsx` (lines 181-207), up to the request it
sends: `none` when it returns after the alert of lines 185-188. -/
def handleSubmit (js : JsLib) (s : UserDashboard) : Option ApiCall :=
  if js.trim s.formData.location = "" || !truthy s.formData.coordinates then none
  else
    let submitData : SubmitData :=
      { title := s.formData.title
        description := s.formData.description
        category := s.formData.category
        location := s.formData.location
        coordinates := js.jsonStringify s.formData.coordinates
        images := s.selectedImages }
    match s.editingComplaint with
    | some editingComplaint => some (.update editingComplaint.doc.doc._id submitData)
    | none => some (.create submitData)

/-! ## Vocabulary of the specification -/

/-- The screening service answered for `file`, and the handler read the AI-generation score
`ai` and the similarity score `sim` from the answer. -/
def Scored (env : Env) (file : UploadedFile) (ai sim : ℚ) : Prop :=
  ∃ r, env.analyzeImage file.path = .ok r ∧
    readScores r = .ok (some (.num ai), some (.num sim))

/-- An image passes screening: its AI-generation score is at most 0.75 and its similarity
score is at most 0.7. -/
def Passes (env : Env) (file : UploadedFile) : Prop :=
  ∃ ai sim, Scored env file ai sim ∧ ai ≤ 0.75 ∧ sim ≤ 0.7

/-- The file at path `p` is on disk and can be deleted. -/
def Deletable (env : Env) (fs : Storage) (p : String) : Prop :=
  p ∈ fs ∧ env.unlinkFault p = none

/-- The required fields of a body are valid: `title`, `description` and `location` are
present and not empty, `category` is one of the enumerated categories. -/
def Body.Valid (b : Body) : Prop :=
  (∃ t, b.title = some t ∧ t ≠ "") ∧ (∃ d, b.description = some d ∧ d ≠ "") ∧
    (∃ c, b.category = some c ∧ c ∈ categoryValues) ∧ (∃ l, b.location = some l ∧ l ≠ "")

/-- Identifiers are unique in the collection. -/
def UniqueIds (st : State) : Prop := (st.complaints.map fun c => c._id).Nodup

/-- Spec: a filter parameter that is missing or empty imposes no constraint; any other
value must equal the field. -/
def satisfies (param : Option String) (value : String) : Bool :=
  match param with
  | none => true
  | some s => s == "" || value == s

/-- Newest first: creation times never increase along the list. -/
def NewestFirst (cs : List Complaint) : Prop :=
  cs.Sorted fun a b => a.createdAt ≥ b.createdAt

/-- The result of a request on a complaint that is not found: 404 and an unchanged state. -/
def notFound (st : State) : Result :=
  { response := some ⟨404, .message "Complaint not found"⟩, state := st, analysed := [] }

/-- The image sequence stored under an identifier, if a complaint has that identifier. -/
def imagesOf (st : State) (id : Nat) : Option (List String) :=
  (st.complaints.find? fun c => c._id == id).map fun c => c.images

/-- The collection as the database keeps it: identifiers are unique and all of them were
issued before the next fresh one. -/
def WellFormed (st : State) : Prop :=
  UniqueIds st ∧ ∀ c ∈ st.complaints, c._id < st.nextId

/-- The identifier and the owner of every complaint of the collection, in order. -/
def owners (st : State) : List (Nat × Nat) :=
  st.complaints.map fun c => (c._id, c.user)

/-- Spec: the status and the priority of every complaint are enumerated values. -/
def EnumeratedValues (st : State) : Prop :=
  ∀ c ∈ st.complaints, c.status ∈ statusValues ∧ c.priority ∈ priorityValues

/-- Spec: every image reference of every complaint names a file that exists in storage. -/
def ImagesStored (st : State) : Prop :=
  ∀ c ∈ st.complaints, ∀ n ∈ c.images, uploadPath n ∈ st.storage

/-- The fields only an authority sets: identifier, status, priority and assignee of every
complaint of the collection, in order. -/
def authorityFields (st : State) : List (Nat × String × String × Option Nat) :=
  st.complaints.map fun c => (c._id, c.status, c.priority, c.assignedTo)

/-- A complaint without its last-modified timestamp. -/
def forgetModified (c : Complaint) : Complaint := { c with updatedAt := 0 }

/-- Line 34 of `routes/complaints.js` alone: `aiResponse.status[0].response.output[0]`. -/
def readOutput (aiResponse : Json) : Except String JsVal := do
  let status ← getProp (some aiResponse) "status"
  let first ← getFirst status
  let response ← getProp first "response"
  let outputs ← getProp response "output"
  getFirst outputs

/-- Lines 35 and 36 alone: the expression `output[name]?.score || 0` for the entry `name`. -/
def readScore (output : JsVal) (name : String) : Except String JsVal := do
  let entry ← getProp output name
  pure (orZero (← optChain entry "score"))

/-- Spec: the output object lacks the entry `name`, or the entry is an object whose score is
missing, `null` or 0. -/
def ZeroScored (output : List (String × Json)) (name : String) : Prop :=
  output.lookup name = none ∨
    ∃ entry, output.lookup name = some (.obj entry) ∧
      (entry.lookup "score" = none ∨ entry.lookup "score" = some .null ∨
        entry.lookup "score" = some (.num 0))

/-! ## Sequences of operations -/

/-- Modelled from the spec: the `upload` middleware (`middleware/upload.js` is not among the
sources), which "writes accepted files to durable storage" before the handler runs: every
file of the request is on disk at its `path`. -/
def upload (st : State) (files : Option (List UploadedFile)) : State :=
  { st with storage := st.storage ++ (files.getD []).map fun f => f.path }

/-- The operations of the workflow, each with its request. -/
inductive Op where
  | create (req : CreateRequest)
  | update (req : UpdateRequest)
  | deleteImage (req : DeleteImageRequest)
  | status (req : AuthorityRequest)
  | priority (req : AuthorityRequest)
  | delete (req : DeleteRequest)
deriving DecidableEq, Repr

/-- One request served: the two multipart routes run behind the upload middleware. -/
def step (env : Env) (st : State) : Op → Result
  | .create req => createComplaint env (upload st req.files) req
  | .update req => updateComplaint env (upload st req.files) req
  | .deleteImage req => deleteImage env st req
  | .status req => updateStatus env st req
  | .priority req => updatePriority env st req
  | .delete req => deleteComplaint env st req

/-- The state after a sequence of requests, each served in its own environment. -/
def run (st : State) : List (Env × Op) → State
  | [] => st
  | (env, op) :: rest => run (step env st op).state rest

/-! ## Sample data -/

/-- An answer of the screening service of the expected shape. -/
def hiveAnswer (ai sim : ℚ) : Json :=
  .obj [("status", .arr [.obj [("response", .obj [("output", .arr [.obj
    [("ai_generated", .obj [("score", .num ai)]),
     ("image_similarity", .obj [("score", .num sim)])]])])]])]

def photoA : UploadedFile := ⟨"public/uploads/a.jpg", "a.jpg"⟩

def photoB : UploadedFile := ⟨"public/uploads/b.jpg", "b.jpg"⟩

def photoC : UploadedFile := ⟨"public/uploads/c.jpg", "c.jpg"⟩

def photoD : UploadedFile := ⟨"public/uploads/d.jpg", "d.jpg"⟩

def photoE : UploadedFile := ⟨"public/uploads/e.jpg", "e.jpg"⟩

def photoF : UploadedFile := ⟨"public/uploads/f.jpg", "f.jpg"⟩

/-- A sample environment: `a.jpg` scores exactly at both thresholds, `b.jpg` has an
AI-generation score of 0.9, `c.jpg` a similarity score of 0.8, the answer for `d.jpg` is an
error object of the service, `f.jpg` has low scores, and the call fails for every other
path. -/
def sampleEnv : Env :=
  { now := 100
    analyzeImage := fun p =>
      if p = "public/uploads/a.jpg" then .ok (hiveAnswer (mkRat 3 4) (mkRat 7 10))
      else if p = "public/uploads/b.jpg" then .ok (hiveAnswer (mkRat 9 10) 0)
      else if p = "public/uploads/c.jpg" then .ok (hiveAnswer (mkRat 3 4) (mkRat 4 5))
      else if p = "public/uploads/d.jpg" then
        .ok (.obj [("status_code", .num 401), ("message", .str "Unauthorized")])
      else if p = "public/uploads/f.jpg" then .ok (hiveAnswer (mkRat 1 10) (mkRat 1 5))
      else .error "fetch failed"
    looseGreater := fun _ _ => false
    dbFault := fun _ => none
    unlinkFault := fun _ => none }

def sampleUsers : List User :=
  [⟨1, "Asha", "asha@example.org", "user"⟩, ⟨2, "Bilal", "bilal@example.org", "user"⟩,
   ⟨9, "Clerk", "clerk@example.org", "authority"⟩]

/-- An empty collection with the six sample photos on disk. -/
def uploadedState : State :=
  { complaints := []
    storage := ["public/uploads/a.jpg", "public/uploads/b.jpg", "public/uploads/c.jpg",
      "public/uploads/d.jpg", "public/uploads/e.jpg", "public/uploads/f.jpg"]
    users := sampleUsers
    nextId := 0 }

def sampleBody : Body :=
  { title := some "Pothole", description := some "Deep pothole", category := some "Infrastructure",
    location := some "Main St", coordinates := none, status := none, priority := none,
    user := none, assignedTo := none }

/-- An empty collection with exactly the photos `a.jpg`, `b.jpg` and `c.jpg` on disk. -/
def threePhotosState : State :=
  { complaints := []
    storage := ["public/uploads/a.jpg", "public/uploads/b.jpg", "public/uploads/c.jpg"]
    users := sampleUsers
    nextId := 0 }

def complaintOne : Complaint :=
  { _id := 1, title := "Pothole", description := "Deep pothole", category := "Infrastructure",
    status := "Pending", location := "Main St", images := ["a.jpg"], user := 1,
    assignedTo := none, priority := "Medium", createdAt := 10, updatedAt := 10 }

def complaintTwo : Complaint :=
  { _id := 2, title := "Leak", description := "Burst pipe", category := "Water",
    status := "Resolved", location := "Mill Rd", images := ["b.jpg", "c.jpg"], user := 2,
    assignedTo := some 9, priority := "High", createdAt := 20, updatedAt := 25 }

def complaintThree : Complaint :=
  { _id := 3, title := "Dry tap", description := "No water since Monday", category := "Water",
    status := "Resolved", location := "Main St", images := [], user := 1,
    assignedTo := some 9, priority := "Low", createdAt := 30, updatedAt := 35 }

/-- Three complaints, two of user 1 and one of user 2, with their images on disk. -/
def sampleState : State :=
  { complaints := [complaintOne, complaintTwo, complaintThree]
    storage := ["public/uploads/a.jpg", "public/uploads/b.jpg", "public/uploads/c.jpg"]
    users := sampleUsers
    nextId := 4 }

/-- The sample environment, except that `b.jpg` cannot be deleted. -/
def lockedFileEnv : Env :=
  { sampleEnv with
    unlinkFault := fun p => if p = "public/uploads/b.jpg" then some "EPERM" else none }

/-- The sample environment, except that `Complaint.findById` fails. -/
def readBackFailureEnv : Env :=
  { sampleEnv with
    dbFault := fun op => if op = DbOp.findById then some "connection lost" else none }

/-- No complaint, no file, the sample accounts. -/
def emptyState : State :=
  { complaints := [], storage := [], users := sampleUsers, nextId := 0 }

/-- The sample state with the file `f.jpg` of a pending update request on disk. -/
def pendingUploadState : State :=
  { sampleState with storage := sampleState.storage ++ ["public/uploads/f.jpg"] }

/-- User 1 creates a complaint with `a.jpg`, then user 2 creates one with `f.jpg`. -/
def twoCreations : List (Env × Op) :=
  [(sampleEnv, .create ⟨some [photoA], sampleBody, 1⟩),
   (sampleEnv, .create ⟨some [photoF], sampleBody, 2⟩)]

/-- A JSON body without any of the fields the routes read. -/
def emptyBody : Body :=
  { title := none, description := none, category := none, location := none,
    coordinates := none, status := none, priority := none, user := none, assignedTo := none }

/-- An answer with the expected path whose output object has neither an `ai_generated` nor an
`image_similarity` entry. -/
def bareAnswer : Json :=
  .obj [("status", .arr [.obj [("response", .obj [("output", .arr [.obj
    [("time", .num 0), ("classes", .arr [])]])])]])]

/-- The sample environment, except that the screening service gives the bare answer for
every image. -/
def bareAnswerEnv : Env :=
  { sampleEnv with analyzeImage := fun _ => .ok bareAnswer }

/-- The sample body with the coordinates the form sends, as a JSON text. -/
def locatedBody : Body :=
  { sampleBody with coordinates := some "\x7b\"lat\":28.61,\"lng\":77.21\x7d" }

/-- The sample complaints as the authority dashboard receives them: two Resolved, one
Pending, none In Progress. -/
def sampleList : List PopulatedComplaint :=
  sampleState.complaints.map (populate sampleState)

/-! ## Screening: auxiliary facts -/

theorem aiThreshold_eq : aiThreshold = 0.75 := by
  unfold aiThreshold
  norm_num

theorem similarityThreshold_eq : similarityThreshold = 0.7 := by
  unfold similarityThreshold
  norm_num

/-- An image that passes does not end the loop: the loop goes on with the next file. -/
theorem screenImages_cons_of_passes (env : Env) (fs : Storage) (file : UploadedFile)
    (rest : List UploadedFile) (h : Passes env file) :
    screenImages env fs (file :: rest) =
      ((screenImages env fs rest).1, file.path :: (screenImages env fs rest).2) := by
  obtain ⟨ai, sim, ⟨r, hr, hs⟩, hai, hsim⟩ := h
  have h1 : ¬ ai > aiThreshold := by rw [aiThreshold_eq]; exact not_lt.mpr hai
  have h2 : ¬ sim > similarityThreshold := by rw [similarityThreshold_eq]; exact not_lt.mpr hsim
  simp [screenImages, hr, hs, greaterThan, h1, h2]

/-- Images that pass are all analysed and leave the outcome to the files after them. -/
theorem screenImages_append_of_passes (env : Env) (fs : Storage) (pre rest : List UploadedFile)
    (h : ∀ g ∈ pre, Passes env g) :
    screenImages env fs (pre ++ rest) =
      ((screenImages env fs rest).1,
        (pre.map fun g => g.path) ++ (screenImages env fs rest).2) := by
  induction pre with
  | nil => simp
  | cons g pre ih =>
    have hg : Passes env g := h g (List.mem_cons_self g pre)
    have hpre : ∀ x ∈ pre, Passes env x := fun x hx => h x (List.mem_cons_of_mem g hx)
    rw [List.cons_append, screenImages_cons_of_passes env fs g (pre ++ rest) hg, ih hpre]
    simp

/-- When every image passes, the loop runs to its end and analyses every file. -/
theorem screenImages_of_all_pass (env : Env) (fs : Storage) (files : List UploadedFile)
    (h : ∀ g ∈ files, Passes env g) :
    screenImages env fs files = (.passed, files.map fun g => g.path) := by
  have := screenImages_append_of_passes env fs files [] h
  simpa [screenImages] using this

theorem unlinkSync_of_deletable (env : Env) (fs : Storage) (p : String)
    (h : Deletable env fs p) : unlinkSync env fs p = .ok (fs.filter fun q => q ≠ p) := by
  simp [unlinkSync, h.1, h.2]

/-! ## C1 - C3: rejections of the create route -/

/-- C1. When all earlier images pass screening and the next image has an AI-generation score
above 0.75, the create route answers 400 with the AI-generated message and the complaint
collection is what it was before: no record was created. (The rejected file is on disk and
can be deleted, as after the upload middleware.) -/
theorem createComplaint_rejects_ai_generated (env : Env) (st : State) (req : CreateRequest)
    (pre post : List UploadedFile) (file : UploadedFile) (r : Json) (ai : ℚ) (sim : JsVal)
    (hfiles : req.files = some (pre ++ file :: post))
    (hpre : ∀ g ∈ pre, Passes env g)
    (hr : env.analyzeImage file.path = .ok r)
    (hs : readScores r = .ok (some (.num ai), sim))
    (hai : ai > 0.75)
    (hdel : Deletable env st.storage file.path) :
    (createComplaint env st req).response = some ⟨400, .failure aiGeneratedMessage⟩ ∧
      (createComplaint env st req).state.complaints = st.complaints := by
  have h1 : ai > aiThreshold := by rw [aiThreshold_eq]; exact hai
  have hscreen : screenImages env st.storage (pre ++ file :: post) =
      (.rejected (st.storage.filter fun q => q ≠ file.path) aiGeneratedMessage,
        (pre.map fun g => g.path) ++ [file.path]) := by
    rw [screenImages_append_of_passes env st.storage pre (file :: post) hpre]
    simp [screenImages, hr, hs, greaterThan, h1, unlinkSync_of_deletable env _ _ hdel]
  simp [createComplaint, hfiles, hscreen]

/-- C2. When all earlier images pass screening and the next image has a similarity score
above 0.7 and an AI-generation score of at most 0.75, the create route answers 400 with the
internet-image message and the complaint collection is what it was before. (The rejected
file is on disk and can be deleted, as after the upload middleware.) -/
theorem createComplaint_rejects_plagiarized (env : Env) (st : State) (req : CreateRequest)
    (pre post : List UploadedFile) (file : UploadedFile) (ai sim : ℚ)
    (hfiles : req.files = some (pre ++ file :: post))
    (hpre : ∀ g ∈ pre, Passes env g)
    (hscored : Scored env file ai sim)
    (hsim : sim > 0.7)
    (hai : ai ≤ 0.75)
    (hdel : Deletable env st.storage file.path) :
    (createComplaint env st req).response = some ⟨400, .failure plagiarizedMessage⟩ ∧
      (createComplaint env st req).state.complaints = st.complaints := by
  obtain ⟨r, hr, hs⟩ := hscored
  have h1 : ¬ ai > aiThreshold := by rw [aiThreshold_eq]; exact not_lt.mpr hai
  have h2 : sim > similarityThreshold := by rw [similarityThreshold_eq]; exact hsim
  have hscreen : screenImages env st.storage (pre ++ file :: post) =
      (.rejected (st.storage.filter fun q => q ≠ file.path) plagiarizedMessage,
        (pre.map fun g => g.path) ++ [file.path]) := by
    rw [screenImages_append_of_passes env st.storage pre (file :: post) hpre]
    simp [screenImages, hr, hs, greaterThan, h1, h2, unlinkSync_of_deletable env _ _ hdel]
  simp [createComplaint, hfiles, hscreen]

/-- C3. A create request without images (`req.files` missing or empty) is answered 400
`Image required`; the screening service is not called and the state is unchanged. -/
theorem createComplaint_requires_image (env : Env) (st : State) (req : CreateRequest)
    (h : req.files = none ∨ req.files = some []) :
    createComplaint env st req =
      { response := some ⟨400, .message "Image required"⟩, state := st, analysed := [] } := by
  rcases h with h | h <;> simp [createComplaint, h]

/-- The sample photo `a.jpg`, scored exactly at both thresholds, passes. -/
theorem photoA_passes : Passes sampleEnv photoA :=
  ⟨mkRat 3 4, mkRat 7 10, ⟨_, rfl, rfl⟩, by norm_num, by norm_num⟩

/-- The sample photo `f.jpg`, with low scores, passes. -/
theorem photoF_passes : Passes sampleEnv photoF :=
  ⟨mkRat 1 10, mkRat 1 5, ⟨_, rfl, rfl⟩, by norm_num, by norm_num⟩

theorem createComplaint_rejects_ai_generated_witness :
    (createComplaint sampleEnv uploadedState
        ⟨some [photoA, photoB, photoC], sampleBody, 1⟩).response =
        some ⟨400, .failure aiGeneratedMessage⟩ ∧
      (createComplaint sampleEnv uploadedState
        ⟨some [photoA, photoB, photoC], sampleBody, 1⟩).state.complaints = [] :=
  createComplaint_rejects_ai_generated sampleEnv uploadedState
    ⟨some [photoA, photoB, photoC], sampleBody, 1⟩ [photoA] [photoC] photoB
    (hiveAnswer (mkRat 9 10) 0) (mkRat 9 10) (some (.num 0)) rfl
    (by
      intro g hg
      rw [List.mem_singleton] at hg
      subst hg
      exact photoA_passes)
    rfl rfl (by norm_num) ⟨by decide, rfl⟩

theorem createComplaint_rejects_plagiarized_witness :
    (createComplaint sampleEnv uploadedState
        ⟨some [photoA, photoC, photoB], sampleBody, 1⟩).response =
        some ⟨400, .failure plagiarizedMessage⟩ ∧
      (createComplaint sampleEnv uploadedState
        ⟨some [photoA, photoC, photoB], sampleBody, 1⟩).state.complaints = [] :=
  createComplaint_rejects_plagiarized sampleEnv uploadedState
    ⟨some [photoA, photoC, photoB], sampleBody, 1⟩ [photoA] [photoB] photoC
    (mkRat 3 4) (mkRat 4 5) rfl
    (by
      intro g hg
      rw [List.mem_singleton] at hg
      subst hg
      exact photoA_passes)
    ⟨_, rfl, rfl⟩ (by norm_num) (by norm_num) ⟨by decide, rfl⟩

theorem createComplaint_requires_image_witness :
    createComplaint sampleEnv uploadedState ⟨some [], sampleBody, 1⟩ =
      { response := some ⟨400, .message "Image required"⟩, state := uploadedState,
        analysed := [] } :=
  createComplaint_requires_image sampleEnv uploadedState ⟨some [], sampleBody, 1⟩ (Or.inr rfl)

/-! ## C4: successful creation -/

theorem validNew_of_valid (b : Body) (images : List String) (user : Nat) (h : b.Valid) :
    validNew
      { title := b.title, description := b.description, category := b.category,
        location := b.location, images := images, user := user } = true := by
  obtain ⟨⟨t, ht, ht'⟩, ⟨d, hd, hd'⟩, ⟨c, hc, hc'⟩, ⟨l, hl, hl'⟩⟩ := h
  have hc'' : c ≠ "" := by
    intro h0
    subst h0
    revert hc'
    decide
  simp [validNew, requiredString, ht, ht', hd, hd', hc, hc', hc'', hl, hl']

/-- C4. A create request with valid required fields and a non-empty list of images that all
pass screening (scores up to and including 0.75 and 0.7) is answered 201, and the record
added to the collection carries the uploaded file names in submission order. When the fresh
identifier is not in use, the response body is that record with its owner expanded. (The
database calls of the handler succeed.) -/
theorem createComplaint_succeeds (env : Env) (st : State) (req : CreateRequest)
    (files : List UploadedFile)
    (hfiles : req.files = some files) (hne : files ≠ [])
    (hvalid : req.body.Valid)
    (hpass : ∀ f ∈ files, Passes env f)
    (hcreate : env.dbFault .create = none) (hfind : env.dbFault .findById = none) :
    ∃ c : Complaint,
      c.images = files.map (fun f => f.filename) ∧
      (createComplaint env st req).state.complaints = st.complaints ++ [c] ∧
      (∃ body, (createComplaint env st req).response = some ⟨201, body⟩) ∧
      ((∀ d ∈ st.complaints, d._id ≠ st.nextId) →
        (createComplaint env st req).response =
          some ⟨201, .complaint (some (populate st c))⟩) := by
  have hlen : files.length ≠ 0 := by
    intro h0
    exact hne (List.length_eq_zero.mp h0)
  have hv := validNew_of_valid req.body (files.map fun f => f.filename) req.user hvalid
  refine ⟨{ _id := st.nextId, title := req.body.title.getD "",
            description := req.body.description.getD "",
            category := req.body.category.getD "", status := "Pending",
            location := req.body.location.getD "",
            images := files.map fun f => f.filename, user := req.user, assignedTo := none,
            priority := "Medium", createdAt := env.now, updatedAt := env.now }, rfl, ?_, ?_, ?_⟩
  · simp [createComplaint, hfiles, hlen, screenImages_of_all_pass env st.storage files hpass,
      Complaint.create, hv, hcreate, Complaint.findById, hfind]
  · simp [createComplaint, hfiles, hlen, screenImages_of_all_pass env st.storage files hpass,
      Complaint.create, hv, hcreate, Complaint.findById, hfind]
  · intro hfresh
    have hnone : List.find? (fun c => c._id == st.nextId) st.complaints = none := by
      rw [List.find?_eq_none]
      intro d hd
      simpa using hfresh d hd
    simp [createComplaint, hfiles, hlen, screenImages_of_all_pass env st.storage files hpass,
      Complaint.create, hv, hcreate, Complaint.findById, hfind, List.find?_append, hnone,
      populate]

theorem createComplaint_succeeds_witness :
    ∃ c : Complaint,
      c.images = ["a.jpg", "f.jpg"] ∧
      (createComplaint sampleEnv uploadedState
        ⟨some [photoA, photoF], sampleBody, 1⟩).state.complaints = [] ++ [c] ∧
      (∃ body, (createComplaint sampleEnv uploadedState
        ⟨some [photoA, photoF], sampleBody, 1⟩).response = some ⟨201, body⟩) ∧
      ((∀ d ∈ ([] : List Complaint), d._id ≠ 0) →
        (createComplaint sampleEnv uploadedState
          ⟨some [photoA, photoF], sampleBody, 1⟩).response =
          some ⟨201, .complaint (some (populate uploadedState c))⟩) :=
  createComplaint_succeeds sampleEnv uploadedState ⟨some [photoA, photoF], sampleBody, 1⟩
    [photoA, photoF] rfl (by decide)
    ⟨⟨"Pothole", rfl, by decide⟩, ⟨"Deep pothole", rfl, by decide⟩,
      ⟨"Infrastructure", rfl, by decide⟩, ⟨"Main St", rfl, by decide⟩⟩
    (by
      intro g hg
      have hgA : g = photoA ∨ g = photoF := by simpa using hg
      rcases hgA with h | h
      · subst h
        exact photoA_passes
      · subst h
        exact photoF_passes)
    rfl rfl

/-! ## C5 and C6: what the create route does when screening fails -/

/-- Files stored under distinct paths, all on disk and deletable, are all unlinked by the
clean-up loop, which then ends without an error. -/
theorem unlinkEach_of_deletable (env : Env) (files : List UploadedFile) :
    ∀ fs : Storage, (files.map fun f => f.path).Nodup →
      (∀ f ∈ files, Deletable env fs f.path) →
      unlinkEach env fs files =
        (fs.filter fun q => q ∉ files.map fun f => f.path, none) := by
  induction files with
  | nil => intro fs _ _; simp [unlinkEach]
  | cons file rest ih =>
    intro fs hnodup hdel
    have hfile : Deletable env fs file.path := hdel file (List.mem_cons_self file rest)
    rw [List.map_cons, List.nodup_cons] at hnodup
    have hrest : ∀ f ∈ rest, Deletable env (fs.filter fun q => q ≠ file.path) f.path := by
      intro f hf
      have hd := hdel f (List.mem_cons_of_mem file hf)
      refine ⟨?_, hd.2⟩
      rw [List.mem_filter]
      refine ⟨hd.1, ?_⟩
      have hne : f.path ≠ file.path := by
        intro heq
        exact hnodup.1 (heq ▸ List.mem_map_of_mem (fun f => f.path) hf)
      simpa using hne
    simp only [unlinkEach, unlinkSync_of_deletable env fs file.path hfile]
    rw [ih _ hnodup.2 hrest, List.filter_filter]
    congr 1
    apply List.filter_congr
    intro q _
    by_cases h1 : q = file.path <;> by_cases h2 : q ∈ rest.map (fun f => f.path) <;>
      simp [h1, h2]

theorem cleanupCatch_complaints (env : Env) (st : State) (files : Option (List UploadedFile))
    (e : String) (analysed : List String) :
    (cleanupCatch env st files e analysed).state.complaints = st.complaints ∧
      (cleanupCatch env st files e analysed).analysed = analysed ∧
      ((cleanupCatch env st files e analysed).response = some ⟨400, .message e⟩ ∨
        (cleanupCatch env st files e analysed).response = none) := by
  unfold cleanupCatch
  cases files with
  | none => simp
  | some fl =>
    rcases h : unlinkEach env st.storage fl with ⟨fs', _ | err⟩ <;> simp [h]

/-- C5 (the code at the failing input). Three files are uploaded: `a.jpg` passes, `b.jpg` has
an AI-generation score of 0.9, `c.jpg` is never screened. The request is answered 400 and no
record is created, but only `b.jpg` is deleted: `a.jpg` and `c.jpg` stay on disk. -/
theorem createComplaint_rejection_keeps_other_files :
    createComplaint sampleEnv threePhotosState ⟨some [photoA, photoB, photoC], sampleBody, 1⟩ =
      { response := some ⟨400, .failure aiGeneratedMessage⟩
        state :=
          { complaints := []
            storage := ["public/uploads/a.jpg", "public/uploads/c.jpg"]
            users := sampleUsers
            nextId := 0 }
        analysed := ["public/uploads/a.jpg", "public/uploads/b.jpg"] } := by
  decide

/-- C6 (counterexample). The call to the screening service fails for `e.jpg`, the first of
two uploaded images. The image is not treated as accepted: the request is answered 400 with
the message of the error, `a.jpg` is never screened, both uploaded files are deleted and no
record is created. -/
theorem createComplaint_collaborator_failure_aborts :
    createComplaint sampleEnv uploadedState ⟨some [photoE, photoA], sampleBody, 1⟩ =
      { response := some ⟨400, .message "fetch failed"⟩
        state :=
          { complaints := []
            storage := ["public/uploads/b.jpg", "public/uploads/c.jpg", "public/uploads/d.jpg",
              "public/uploads/f.jpg"]
            users := sampleUsers
            nextId := 0 }
        analysed := ["public/uploads/e.jpg"] } := by
  decide

/-- C6 (amended). For a create request whose earlier images pass screening:
when the service answers for the next image with a result of unexpected shape (reading the
scores throws), the image is treated as accepted and the loop continues with the remaining
images, its outcome being theirs; when the call to the service itself fails, creation is
aborted: the remaining images are not screened, no record is created, and the response is
400 with the message of the error, provided the uploaded files (stored under distinct paths)
can all be deleted, and no response at all otherwise. -/
theorem createComplaint_screening_failure (env : Env) (st : State) (req : CreateRequest)
    (pre post : List UploadedFile) (file : UploadedFile)
    (hfiles : req.files = some (pre ++ file :: post))
    (hpre : ∀ g ∈ pre, Passes env g) :
    (∀ r e, env.analyzeImage file.path = .ok r → readScores r = .error e →
      screenImages env st.storage (pre ++ file :: post) =
        ((screenImages env st.storage post).1,
          ((pre ++ [file]).map fun g => g.path) ++ (screenImages env st.storage post).2)) ∧
    (∀ e, env.analyzeImage file.path = .error e →
      (createComplaint env st req).state.complaints = st.complaints ∧
      (createComplaint env st req).analysed = ((pre ++ [file]).map fun g => g.path) ∧
      ((createComplaint env st req).response = some ⟨400, .message e⟩ ∨
        (createComplaint env st req).response = none) ∧
      (((pre ++ file :: post).map fun g => g.path).Nodup →
        (∀ g ∈ pre ++ file :: post, Deletable env st.storage g.path) →
        (createComplaint env st req).response = some ⟨400, .message e⟩)) := by
  constructor
  · intro r e hr hs
    rw [screenImages_append_of_passes env st.storage pre (file :: post) hpre]
    simp [screenImages, hr, hs]
  · intro e he
    have hscreen : screenImages env st.storage (pre ++ file :: post) =
        (.threw e, (pre ++ [file]).map fun g => g.path) := by
      rw [screenImages_append_of_passes env st.storage pre (file :: post) hpre]
      simp [screenImages, he]
    have hcreate : createComplaint env st req =
        cleanupCatch env st (some (pre ++ file :: post)) e
          ((pre ++ [file]).map fun g => g.path) := by
      simp [createComplaint, hfiles, hscreen]
    rw [hcreate]
    obtain ⟨h1, h2, h3⟩ := cleanupCatch_complaints env st (some (pre ++ file :: post)) e
      ((pre ++ [file]).map fun g => g.path)
    refine ⟨h1, h2, h3, ?_⟩
    intro hnodup hdel
    simp [cleanupCatch, unlinkEach_of_deletable env _ st.storage hnodup hdel]

theorem createComplaint_screening_failure_witness :
    (∀ r e, sampleEnv.analyzeImage photoD.path = .ok r → readScores r = .error e →
      screenImages sampleEnv uploadedState.storage ([photoA] ++ photoD :: [photoF]) =
        ((screenImages sampleEnv uploadedState.storage [photoF]).1,
          (([photoA] ++ [photoD]).map fun g => g.path) ++
            (screenImages sampleEnv uploadedState.storage [photoF]).2)) ∧
    (∀ e, sampleEnv.analyzeImage photoD.path = .error e →
      (createComplaint sampleEnv uploadedState
        ⟨some [photoA, photoD, photoF], sampleBody, 1⟩).state.complaints = [] ∧
      (createComplaint sampleEnv uploadedState
        ⟨some [photoA, photoD, photoF], sampleBody, 1⟩).analysed =
          (([photoA] ++ [photoD]).map fun g => g.path) ∧
      ((createComplaint sampleEnv uploadedState
        ⟨some [photoA, photoD, photoF], sampleBody, 1⟩).response = some ⟨400, .message e⟩ ∨
        (createComplaint sampleEnv uploadedState
          ⟨some [photoA, photoD, photoF], sampleBody, 1⟩).response = none) ∧
      ((([photoA] ++ photoD :: [photoF]).map fun g => g.path).Nodup →
        (∀ g ∈ [photoA] ++ photoD :: [photoF], Deletable sampleEnv uploadedState.storage g.path) →
        (createComplaint sampleEnv uploadedState
          ⟨some [photoA, photoD, photoF], sampleBody, 1⟩).response =
            some ⟨400, .message e⟩)) :=
  createComplaint_screening_failure sampleEnv uploadedState
    ⟨some [photoA, photoD, photoF], sampleBody, 1⟩ [photoA] [photoF] photoD rfl
    (by
      intro g hg
      rw [List.mem_singleton] at hg
      subst hg
      exact photoA_passes)

/-! ## Looking documents up -/

theorem eq_of_id_eq (st : State) (h : UniqueIds st) (c d : Complaint)
    (hc : c ∈ st.complaints) (hd : d ∈ st.complaints) (hid : d._id = c._id) : d = c :=
  List.inj_on_of_nodup_map h hd hc hid

/-- A user who does not own the complaint finds nothing under its identifier. -/
theorem find_owned_eq_none (st : State) (h : UniqueIds st) (c : Complaint) (uid : Nat)
    (hc : c ∈ st.complaints) (hu : uid ≠ c.user) :
    st.complaints.find? (fun x => x._id == c._id && x.user == uid) = none := by
  rw [List.find?_eq_none]
  intro d hd hp
  simp only [Bool.and_eq_true, beq_iff_eq] at hp
  have := eq_of_id_eq st h c d hc hd hp.1
  subst this
  exact hu hp.2.symm

/-- Nothing is found under an identifier that is not in the collection. -/
theorem find_absent_eq_none (st : State) (absent uid : Nat)
    (h : ∀ d ∈ st.complaints, d._id ≠ absent) :
    st.complaints.find? (fun x => x._id == absent && x.user == uid) = none := by
  rw [List.find?_eq_none]
  intro d hd hp
  simp only [Bool.and_eq_true, beq_iff_eq] at hp
  exact h d hd hp.1

/-- A document of the collection is the one found under its identifier. -/
theorem find_id_eq_some (st : State) (h : UniqueIds st) (c : Complaint)
    (hc : c ∈ st.complaints) :
    st.complaints.find? (fun x => x._id == c._id) = some c := by
  cases hf : st.complaints.find? (fun x => x._id == c._id) with
  | none =>
    rw [List.find?_eq_none] at hf
    exact absurd (by simp) (hf c hc)
  | some d =>
    have hp := List.find?_some hf
    have hd := List.mem_of_find?_eq_some hf
    simp only [beq_iff_eq] at hp
    rw [eq_of_id_eq st h c d hc hd hp]

theorem mem_replaceById (id : Nat) (c' : Complaint) (l : List Complaint)
    (h : ∃ x ∈ l, x._id = id) : c' ∈ replaceById id c' l := by
  induction l with
  | nil => simp at h
  | cons x xs ih =>
    by_cases hx : x._id = id
    · simp [replaceById, hx]
    · obtain ⟨y, hy, hyid⟩ := h
      have hy' : y ∈ xs := by
        rcases List.mem_cons.mp hy with h1 | h1
        · exact absurd (h1 ▸ hyid) hx
        · exact h1
      simp [replaceById, hx, ih ⟨y, hy', hyid⟩]

/-! ## C7: a complaint of another user looks like a missing one -/

/-- C7. For a complaint of the collection and a user who is not its owner, the update, image
deletion and complaint deletion routes give the same result as for an identifier that is not
in the collection: 404 `Complaint not found`, with the state (so the record and its image
sequence) unchanged. (Identifiers are unique and the lookup itself succeeds.) -/
theorem nonOwner_gets_notFound (env : Env) (st : State) (c : Complaint) (uid absent : Nat)
    (files : Option (List UploadedFile)) (body : Body) (imageName : String)
    (hc : c ∈ st.complaints) (hu : uid ≠ c.user) (hids : UniqueIds st)
    (habs : ∀ d ∈ st.complaints, d._id ≠ absent)
    (hdb : env.dbFault .findOne = none) :
    (updateComplaint env st ⟨c._id, files, body, uid⟩ = notFound st ∧
      updateComplaint env st ⟨absent, files, body, uid⟩ = notFound st) ∧
    (deleteImage env st ⟨c._id, imageName, uid⟩ = notFound st ∧
      deleteImage env st ⟨absent, imageName, uid⟩ = notFound st) ∧
    (deleteComplaint env st ⟨c._id, uid⟩ = notFound st ∧
      deleteComplaint env st ⟨absent, uid⟩ = notFound st) := by
  have h1 := find_owned_eq_none st hids c uid hc hu
  have h2 := find_absent_eq_none st absent uid habs
  simp [updateComplaint, deleteImage, deleteComplaint, Complaint.findOne, hdb, h1, h2, notFound]

theorem nonOwner_gets_notFound_witness :
    (updateComplaint sampleEnv sampleState ⟨2, some [photoF], sampleBody, 1⟩ =
        notFound sampleState ∧
      updateComplaint sampleEnv sampleState ⟨7, some [photoF], sampleBody, 1⟩ =
        notFound sampleState) ∧
    (deleteImage sampleEnv sampleState ⟨2, "b.jpg", 1⟩ = notFound sampleState ∧
      deleteImage sampleEnv sampleState ⟨7, "b.jpg", 1⟩ = notFound sampleState) ∧
    (deleteComplaint sampleEnv sampleState ⟨2, 1⟩ = notFound sampleState ∧
      deleteComplaint sampleEnv sampleState ⟨7, 1⟩ = notFound sampleState) :=
  nonOwner_gets_notFound sampleEnv sampleState complaintTwo 1 7 (some [photoF]) sampleBody
    "b.jpg" (by decide) (by decide) (by unfold UniqueIds; decide) (by decide) rfl

/-! ## C8: status update -/

/-- C8. For a complaint of the collection, any acting authority and any status `s` carried by
the body (each enumerated value in particular: the route checks neither `s` nor the current
status), the status route answers 200 with the complaint whose status is `s` and whose
`assignedTo` is the actor; that complaint replaces the old one in the collection, and its
identifier, title, description, category, location, images, owner and priority are those of
the old one. (Identifiers are unique and the database call succeeds.) -/
theorem updateStatus_sets_status_and_assignee (env : Env) (st : State) (c : Complaint)
    (actor : Nat) (s : String) (body : Body)
    (hc : c ∈ st.complaints) (hids : UniqueIds st) (hbody : body.status = some s)
    (hdb : env.dbFault .findByIdAndUpdate = none) :
    ∃ c' : Complaint,
      (updateStatus env st ⟨c._id, body, actor⟩).response =
        some ⟨200, .complaint (some (populate st c'))⟩ ∧
      (updateStatus env st ⟨c._id, body, actor⟩).state.complaints =
        replaceById c._id c' st.complaints ∧
      c' ∈ (updateStatus env st ⟨c._id, body, actor⟩).state.complaints ∧
      c'.status = s ∧ c'.assignedTo = some actor ∧
      c'._id = c._id ∧ c'.title = c.title ∧ c'.description = c.description ∧
      c'.category = c.category ∧ c'.location = c.location ∧ c'.images = c.images ∧
      c'.user = c.user ∧ c'.priority = c.priority := by
  have hfind := find_id_eq_some st hids c hc
  have hstate : (updateStatus env st ⟨c._id, body, actor⟩).state.complaints =
      replaceById c._id { c with status := s, assignedTo := some actor, updatedAt := env.now }
        st.complaints := by
    simp [updateStatus, Complaint.findByIdAndUpdate, hdb, hfind, hbody]
  refine ⟨{ c with status := s, assignedTo := some actor, updatedAt := env.now },
    ?_, hstate, ?_, rfl, rfl, rfl, rfl, rfl, rfl, rfl, rfl, rfl, rfl⟩
  · simp [updateStatus, Complaint.findByIdAndUpdate, hdb, hfind, hbody, populate]
  · rw [hstate]
    exact mem_replaceById _ _ _ ⟨c, hc, rfl⟩

theorem updateStatus_sets_status_and_assignee_witness :
    ∃ c' : Complaint,
      (updateStatus sampleEnv sampleState
        ⟨complaintThree._id, { sampleBody with status := some "In Progress" }, 9⟩).response =
        some ⟨200, .complaint (some (populate sampleState c'))⟩ ∧
      (updateStatus sampleEnv sampleState
        ⟨complaintThree._id, { sampleBody with status := some "In Progress" }, 9⟩).state.complaints =
        replaceById complaintThree._id c' sampleState.complaints ∧
      c' ∈ (updateStatus sampleEnv sampleState
        ⟨complaintThree._id, { sampleBody with status := some "In Progress" }, 9⟩).state.complaints ∧
      c'.status = "In Progress" ∧ c'.assignedTo = some 9 ∧
      c'._id = complaintThree._id ∧ c'.title = complaintThree.title ∧
      c'.description = complaintThree.description ∧
      c'.category = complaintThree.category ∧ c'.location = complaintThree.location ∧
      c'.images = complaintThree.images ∧
      c'.user = complaintThree.user ∧ c'.priority = complaintThree.priority :=
  updateStatus_sets_status_and_assignee sampleEnv sampleState complaintThree 9 "In Progress"
    { sampleBody with status := some "In Progress" } (by decide) (by unfold UniqueIds; decide)
    rfl rfl

/-! ## C9 and C10: the two lists -/

theorem sortNewestFirst_perm (cs : List Complaint) : (sortNewestFirst cs).Perm cs :=
  List.perm_insertionSort _ cs

theorem sortNewestFirst_sorted (cs : List Complaint) : NewestFirst (sortNewestFirst cs) := by
  haveI : IsTotal Complaint (fun a b => a.createdAt ≥ b.createdAt) :=
    ⟨fun a b => Nat.le_total b.createdAt a.createdAt⟩
  haveI : IsTrans Complaint (fun a b => a.createdAt ≥ b.createdAt) :=
    ⟨fun _ _ _ hab hbc => Nat.le_trans hbc hab⟩
  exact List.sorted_insertionSort _ cs

/-- The filter built from the query constrains exactly the parameters that are present and
not empty. -/
theorem buildFilter_matches (q : ListQuery) (c : Complaint) :
    (buildFilter q).matches c =
      (satisfies q.status c.status && satisfies q.category c.category &&
        satisfies q.priority c.priority) := by
  have key : ∀ (param : Option String) (value : String),
      (match (if given param then param else none) with
        | some s => value == s
        | none => true) = satisfies param value := by
    intro param value
    cases param with
    | none => simp [given, satisfies]
    | some s =>
      by_cases hs : s = ""
      · simp [given, satisfies, hs]
      · simp [given, satisfies, hs]
  simp only [Filter.matches, buildFilter, key]

/-- C9 (counterexample). The query `?status=` carries the field `status` with the empty
string as value. No sample complaint has that status, yet the full list route returns all
three of them. -/
theorem listAllComplaints_empty_status_returns_all :
    listAllComplaints sampleEnv sampleState ⟨some "", none, none⟩ =
        { response := some ⟨200, .complaints
            [populate sampleState complaintThree, populate sampleState complaintTwo,
              populate sampleState complaintOne]⟩
          state := sampleState
          analysed := [] } ∧
      sampleState.complaints.filter (fun c => c.status == "") = [] := by
  decide

/-- C9 (amended). For every collection and every query, the full list route answers 200 with
exactly the complaints that equal the query on every parameter that is present and not empty
(all such constraints together; a missing or empty parameter imposes none), newest first, each
with its owner expanded, and leaves the state unchanged. With the query `status=Resolved`
alone, the complaints returned are exactly the Resolved ones. (The database call
succeeds.) -/
theorem listAllComplaints_filters (env : Env) (st : State) (q : ListQuery)
    (hdb : env.dbFault .find = none) :
    ∃ cs : List Complaint,
      listAllComplaints env st q =
        { response := some ⟨200, .complaints (cs.map (populate st))⟩, state := st,
          analysed := [] } ∧
      cs.Perm (st.complaints.filter fun c =>
        satisfies q.status c.status && satisfies q.category c.category &&
          satisfies q.priority c.priority) ∧
      NewestFirst cs ∧
      (q = ⟨some "Resolved", none, none⟩ →
        ∀ c, c ∈ cs ↔ c ∈ st.complaints ∧ c.status = "Resolved") := by
  refine ⟨sortNewestFirst (st.complaints.filter (buildFilter q).matches), ?_, ?_,
    sortNewestFirst_sorted _, ?_⟩
  · simp [listAllComplaints, Complaint.find, hdb]
  · have hfun : (buildFilter q).matches = fun c =>
        satisfies q.status c.status && satisfies q.category c.category &&
          satisfies q.priority c.priority := funext (buildFilter_matches q)
    rw [hfun]
    exact sortNewestFirst_perm _
  · intro hq c
    rw [(sortNewestFirst_perm _).mem_iff, List.mem_filter, buildFilter_matches, hq]
    simp [satisfies]

theorem listAllComplaints_filters_witness :
    ∃ cs : List Complaint,
      listAllComplaints sampleEnv sampleState ⟨some "Resolved", some "", some "High"⟩ =
        { response := some ⟨200, .complaints (cs.map (populate sampleState))⟩,
          state := sampleState, analysed := [] } ∧
      cs.Perm (sampleState.complaints.filter fun c =>
        satisfies (some "Resolved") c.status && satisfies (some "") c.category &&
          satisfies (some "High") c.priority) ∧
      NewestFirst cs ∧
      ((⟨some "Resolved", some "", some "High"⟩ : ListQuery) = ⟨some "Resolved", none, none⟩ →
        ∀ c, c ∈ cs ↔ c ∈ sampleState.complaints ∧ c.status = "Resolved") :=
  listAllComplaints_filters sampleEnv sampleState ⟨some "Resolved", some "", some "High"⟩ rfl

/-- C10. For every collection and every acting user, the own list route answers 200 with
exactly the complaints whose owner is the actor, none of anyone else, newest first, each
with its owner expanded, and leaves the state unchanged. (The database call succeeds.) -/
theorem listMyComplaints_owner_only (env : Env) (st : State) (actor : Nat)
    (hdb : env.dbFault .find = none) :
    ∃ cs : List Complaint,
      listMyComplaints env st actor =
        { response := some ⟨200, .complaints (cs.map (populate st))⟩, state := st,
          analysed := [] } ∧
      cs.Perm (st.complaints.filter fun c => decide (c.user = actor)) ∧
      (∀ c, c ∈ cs ↔ c ∈ st.complaints ∧ c.user = actor) ∧
      NewestFirst cs := by
  have hfun : (fun c : Complaint => c.user == actor) = fun c => decide (c.user = actor) :=
    rfl
  refine ⟨sortNewestFirst (st.complaints.filter fun c => c.user == actor), ?_, ?_, ?_,
    sortNewestFirst_sorted _⟩
  · simp [listMyComplaints, Complaint.find, hdb]
  · rw [hfun]
    exact sortNewestFirst_perm _
  · intro c
    rw [(sortNewestFirst_perm _).mem_iff, List.mem_filter]
    simp

theorem listMyComplaints_owner_only_witness :
    ∃ cs : List Complaint,
      listMyComplaints sampleEnv sampleState 1 =
        { response := some ⟨200, .complaints (cs.map (populate sampleState))⟩,
          state := sampleState, analysed := [] } ∧
      cs.Perm (sampleState.complaints.filter fun c => decide (c.user = 1)) ∧
      (∀ c, c ∈ cs ↔ c ∈ sampleState.complaints ∧ c.user = 1) ∧
      NewestFirst cs :=
  listMyComplaints_owner_only sampleEnv sampleState 1 rfl

/-! ## C11: images appended by an update -/

/-- The owner finds the document under its identifier. -/
theorem find_owner_eq_some (st : State) (h : UniqueIds st) (c : Complaint)
    (hc : c ∈ st.complaints) :
    st.complaints.find? (fun x => x._id == c._id && x.user == c.user) = some c := by
  cases hf : st.complaints.find? (fun x => x._id == c._id && x.user == c.user) with
  | none =>
    rw [List.find?_eq_none] at hf
    exact absurd (by simp) (hf c hc)
  | some d =>
    have hp := List.find?_some hf
    have hd := List.mem_of_find?_eq_some hf
    simp only [Bool.and_eq_true, beq_iff_eq] at hp
    rw [eq_of_id_eq st h c d hc hd hp.1]

/-- C11. For a complaint of the collection with image sequence `I` and any list `N` of newly
uploaded files, the update route called by the owner answers 200 with the complaint whose
image sequence is `I` followed by the file names of `N` in submission order; that complaint
replaces the old one in the collection. When `N` is missing or empty the image sequence is
`I`. Nothing is passed to the screening service. (Identifiers are unique and the database
calls succeed.) -/
theorem updateComplaint_appends_images (env : Env) (st : State) (c : Complaint)
    (files : Option (List UploadedFile)) (body : Body)
    (hc : c ∈ st.complaints) (hids : UniqueIds st)
    (hfind : env.dbFault .findOne = none) (hupd : env.dbFault .findByIdAndUpdate = none) :
    ∃ c' : Complaint,
      updateComplaint env st ⟨c._id, files, body, c.user⟩ =
        { response := some ⟨200, .complaint (some (populate st c'))⟩
          state := { st with complaints := replaceById c._id c' st.complaints }
          analysed := [] } ∧
      c' ∈ replaceById c._id c' st.complaints ∧
      c'._id = c._id ∧
      c'.images = c.images ++ (files.getD []).map (fun f => f.filename) ∧
      (files = none ∨ files = some [] → c'.images = c.images) := by
  have h1 := find_owner_eq_some st hids c hc
  have h2 := find_id_eq_some st hids c hc
  refine ⟨{ updateFields body (c.images ++ (files.getD []).map (fun f => f.filename)) c with
            updatedAt := env.now }, ?_, mem_replaceById _ _ _ ⟨c, hc, rfl⟩, rfl, rfl, ?_⟩
  · cases files with
    | none =>
      simp [updateComplaint, Complaint.findOne, hfind, h1, Complaint.findByIdAndUpdate, hupd,
        h2, populate, updateFields]
    | some fl =>
      cases fl with
      | nil =>
        simp [updateComplaint, Complaint.findOne, hfind, h1, Complaint.findByIdAndUpdate,
          hupd, h2, populate, updateFields]
      | cons f rest =>
        simp [updateComplaint, Complaint.findOne, hfind, h1, Complaint.findByIdAndUpdate,
          hupd, h2, populate, updateFields]
  · intro hfiles
    rcases hfiles with h | h <;> simp [h, updateFields]

theorem updateComplaint_appends_images_witness :
    ∃ c' : Complaint,
      updateComplaint sampleEnv sampleState
          ⟨complaintOne._id, some [photoF, photoD], sampleBody, complaintOne.user⟩ =
        { response := some ⟨200, .complaint (some (populate sampleState c'))⟩
          state :=
            { sampleState with
              complaints := replaceById complaintOne._id c' sampleState.complaints }
          analysed := [] } ∧
      c' ∈ replaceById complaintOne._id c' sampleState.complaints ∧
      c'._id = complaintOne._id ∧
      c'.images = complaintOne.images ++
        ((some [photoF, photoD] : Option (List UploadedFile)).getD []).map
          (fun f => f.filename) ∧
      ((some [photoF, photoD] : Option (List UploadedFile)) = none ∨
        (some [photoF, photoD] : Option (List UploadedFile)) = some [] →
        c'.images = complaintOne.images) :=
  updateComplaint_appends_images sampleEnv sampleState complaintOne (some [photoF, photoD])
    sampleBody (by decide) (by unfold UniqueIds; decide) rfl rfl

/-! ## C12: deletion of a complaint -/

/-- With unique identifiers, removing by identifier keeps exactly the other documents. -/
theorem removeById_eq_filter (id : Nat) (l : List Complaint)
    (h : (l.map fun c => c._id).Nodup) :
    removeById id l = l.filter fun d => d._id ≠ id := by
  induction l with
  | nil => simp [removeById]
  | cons x xs ih =>
    rw [List.map_cons, List.nodup_cons] at h
    by_cases hx : x._id = id
    · have hall : ∀ d ∈ xs, d._id ≠ id := by
        intro d hd hdid
        exact h.1 (hx ▸ hdid ▸ List.mem_map_of_mem (fun c => c._id) hd)
      have hxs : xs.filter (fun d => !decide (d._id = id)) = xs := by
        rw [List.filter_eq_self]
        intro d hd
        simpa using hall d hd
      simp [removeById, hx, hxs]
    · simp [removeById, hx, ih h.2]

/-- When the deletion loop ends without an error, no image of the list has a file left, and
no file was added. -/
theorem unlinkExisting_of_ok (env : Env) (names : List String) :
    ∀ fs fs' : Storage, unlinkExisting env fs names = (fs', none) →
      (∀ n ∈ names, uploadPath n ∉ fs') ∧ ∀ p ∈ fs', p ∈ fs := by
  induction names with
  | nil =>
    intro fs fs' h
    simp [unlinkExisting] at h
    subst h
    simp
  | cons name rest ih =>
    intro fs fs' h
    unfold unlinkExisting at h
    by_cases hex : uploadPath name ∈ fs
    · cases hfault : env.unlinkFault (uploadPath name) with
      | some e => simp [existsSync, unlinkSync, hex, hfault] at h
      | none =>
        simp only [existsSync, unlinkSync, hex, hfault, decide_True, if_true] at h
        obtain ⟨h1, h2⟩ := ih _ _ h
        refine ⟨?_, fun p hp => (List.mem_filter.mp (h2 p hp)).1⟩
        intro n hn
        rcases List.mem_cons.mp hn with hn | hn
        · subst hn
          intro hmem
          have := (List.mem_filter.mp (h2 _ hmem)).2
          simp at this
        · exact h1 n hn
    · simp only [existsSync, hex, decide_False] at h
      obtain ⟨h1, h2⟩ := ih _ _ h
      refine ⟨?_, h2⟩
      intro n hn
      rcases List.mem_cons.mp hn with hn | hn
      · subst hn
        exact fun hmem => hex (h2 _ hmem)
      · exact h1 n hn

/-- C12. For a complaint of the collection, once the deletion route called by its owner has
answered 200: no referenced image has a file in storage, the collection is the old one
without that record (every other record is kept as it was, in the same order), and the
record is not in the list the own list route returns to the owner. (Identifiers are
unique.) -/
theorem deleteComplaint_removes_record_and_files (env : Env) (st : State) (c : Complaint)
    (hc : c ∈ st.complaints) (hids : UniqueIds st)
    (hok : (deleteComplaint env st ⟨c._id, c.user⟩).response =
      some ⟨200, .message "Complaint deleted successfully"⟩) :
    (∀ n ∈ c.images,
      existsSync (deleteComplaint env st ⟨c._id, c.user⟩).state.storage (uploadPath n) =
        false) ∧
    (deleteComplaint env st ⟨c._id, c.user⟩).state.complaints =
      st.complaints.filter (fun d => d._id ≠ c._id) ∧
    c ∉ (deleteComplaint env st ⟨c._id, c.user⟩).state.complaints ∧
    (∀ env' ps,
      (listMyComplaints env' (deleteComplaint env st ⟨c._id, c.user⟩).state c.user).response =
        some ⟨200, .complaints ps⟩ → ∀ p ∈ ps, p.doc._id ≠ c._id) := by
  have h1 := find_owner_eq_some st hids c hc
  cases hf : env.dbFault .findOne with
  | some e => simp [deleteComplaint, Complaint.findOne, hf] at hok
  | none =>
    rcases hu : unlinkExisting env st.storage c.images with ⟨fs', _ | e⟩
    · cases hd : env.dbFault .findByIdAndDelete with
      | some e =>
        simp [deleteComplaint, Complaint.findOne, hf, h1, hu, Complaint.findByIdAndDelete,
          hd] at hok
      | none =>
        have hstate : (deleteComplaint env st ⟨c._id, c.user⟩).state =
            { st with storage := fs', complaints := removeById c._id st.complaints } := by
          simp [deleteComplaint, Complaint.findOne, hf, h1, hu, Complaint.findByIdAndDelete,
            hd]
        have hfilter := removeById_eq_filter c._id st.complaints hids
        rw [hstate]
        refine ⟨?_, hfilter, ?_, ?_⟩
        · intro n hn
          have := (unlinkExisting_of_ok env c.images st.storage fs' hu).1 n hn
          simpa [existsSync] using this
        · simp only [hfilter]
          intro hmem
          have := (List.mem_filter.mp hmem).2
          simp at this
        · intro env' ps hps p hp
          cases hfind : env'.dbFault .find with
          | some e => simp [listMyComplaints, Complaint.find, hfind] at hps
          | none =>
            simp only [listMyComplaints, Complaint.find, hfind, Option.some.injEq,
              Response.mk.injEq, ResBody.complaints.injEq, true_and] at hps
            subst hps
            obtain ⟨d, hd, rfl⟩ := List.mem_map.mp hp
            have hd' := (sortNewestFirst_perm _).mem_iff.mp hd
            have hd'' := (List.mem_filter.mp hd').1
            simp only [hfilter] at hd''
            have := (List.mem_filter.mp hd'').2
            simpa [populate] using this
    · simp [deleteComplaint, Complaint.findOne, hf, h1, hu] at hok

theorem deleteComplaint_removes_record_and_files_witness :
    (∀ n ∈ complaintTwo.images,
      existsSync (deleteComplaint sampleEnv sampleState
        ⟨complaintTwo._id, complaintTwo.user⟩).state.storage (uploadPath n) = false) ∧
    (deleteComplaint sampleEnv sampleState
        ⟨complaintTwo._id, complaintTwo.user⟩).state.complaints =
      sampleState.complaints.filter (fun d => d._id ≠ complaintTwo._id) ∧
    complaintTwo ∉ (deleteComplaint sampleEnv sampleState
        ⟨complaintTwo._id, complaintTwo.user⟩).state.complaints ∧
    (∀ env' ps,
      (listMyComplaints env' (deleteComplaint sampleEnv sampleState
        ⟨complaintTwo._id, complaintTwo.user⟩).state complaintTwo.user).response =
        some ⟨200, .complaints ps⟩ → ∀ p ∈ ps, p.doc._id ≠ complaintTwo._id) :=
  deleteComplaint_removes_record_and_files sampleEnv sampleState complaintTwo (by decide)
    (by unfold UniqueIds; decide) (by decide)

/-! ## C13: what the deletion route does when a file cannot be deleted -/

theorem filter_ne_filter_not_mem (fs : Storage) (p : String) (l : List String) :
    (fs.filter fun q => q ≠ p).filter (fun q => q ∉ l) = fs.filter fun q => q ∉ p :: l := by
  rw [List.filter_filter]
  apply List.filter_congr
  intro q _
  by_cases h1 : q = p <;> by_cases h2 : q ∈ l <;> simp [h1, h2]

theorem unlinkExisting_cons (env : Env) (fs : Storage) (name : String) (rest : List String) :
    unlinkExisting env fs (name :: rest) =
      if existsSync fs (uploadPath name) then
        match unlinkSync env fs (uploadPath name) with
        | .ok fs' => unlinkExisting env fs' rest
        | .error e => (fs, some e)
      else unlinkExisting env fs rest := by
  rw [unlinkExisting]

/-- Images whose files can be deleted, or are missing, are passed by the deletion loop, which
goes on with the images after them. -/
theorem unlinkExisting_append (env : Env) (pre rest : List String) :
    ∀ fs : Storage, (∀ n ∈ pre, env.unlinkFault (uploadPath n) = none) →
      unlinkExisting env fs (pre ++ rest) =
        unlinkExisting env (fs.filter fun q => q ∉ pre.map uploadPath) rest := by
  induction pre with
  | nil => intro fs _; simp
  | cons name pre ih =>
    intro fs h
    have hname := h name (List.mem_cons_self name pre)
    have hpre : ∀ n ∈ pre, env.unlinkFault (uploadPath n) = none :=
      fun n hn => h n (List.mem_cons_of_mem name hn)
    rw [List.cons_append, List.map_cons, unlinkExisting_cons]
    by_cases hex : uploadPath name ∈ fs
    · simp only [existsSync, unlinkSync, hex, hname, decide_True, if_true]
      rw [ih _ hpre, filter_ne_filter_not_mem]
    · have hsame : (fs.filter fun q => q ∉ uploadPath name :: pre.map uploadPath) =
          fs.filter fun q => q ∉ pre.map uploadPath := by
        apply List.filter_congr
        intro q hq
        have hne : q ≠ uploadPath name := fun h0 => hex (h0 ▸ hq)
        simp [hne]
      simp only [existsSync, hex, decide_False, Bool.false_eq_true, if_false]
      rw [ih _ hpre, hsame]

/-- C13 (counterexample). Complaint 2 references `b.jpg` and `c.jpg`, and `b.jpg` cannot be
deleted. The deletion route called by the owner answers 400: `c.jpg` is not attempted and
stays on disk, and the record is not deleted. -/
theorem deleteComplaint_stops_at_failed_unlink :
    deleteComplaint lockedFileEnv sampleState ⟨2, 2⟩ =
      { response := some ⟨400, .message "EPERM"⟩, state := sampleState, analysed := [] } := by
  decide

/-- C13 (amended). For a complaint of the collection deleted by its owner: the referenced
images are deleted in order, an image whose file is missing being skipped; when no deletion
fails, every referenced file is gone and the record is then deleted (200). When the deletion
of an image fails, the loop stops there: the files of the images before it are gone, the
images after it are not attempted, the record is not deleted, and the answer is 400 with the
message of the error. (Identifiers are unique and the lookup succeeds.) -/
theorem deleteComplaint_deletion_policy (env : Env) (st : State) (c : Complaint)
    (hc : c ∈ st.complaints) (hids : UniqueIds st) (hfind : env.dbFault .findOne = none) :
    ((∀ n ∈ c.images, env.unlinkFault (uploadPath n) = none) →
      env.dbFault .findByIdAndDelete = none →
      deleteComplaint env st ⟨c._id, c.user⟩ =
        { response := some ⟨200, .message "Complaint deleted successfully"⟩
          state :=
            { st with
              storage := st.storage.filter fun p => p ∉ c.images.map uploadPath
              complaints := removeById c._id st.complaints }
          analysed := [] }) ∧
    (∀ pre name post e, c.images = pre ++ name :: post →
      (∀ n ∈ pre, env.unlinkFault (uploadPath n) = none) →
      uploadPath name ∈ st.storage → env.unlinkFault (uploadPath name) = some e →
      deleteComplaint env st ⟨c._id, c.user⟩ =
        { response := some ⟨400, .message e⟩
          state := { st with storage := st.storage.filter fun p => p ∉ pre.map uploadPath }
          analysed := [] }) := by
  have h1 := find_owner_eq_some st hids c hc
  constructor
  · intro hall hdel
    have hu := unlinkExisting_append env c.images [] st.storage hall
    rw [List.append_nil] at hu
    simp [deleteComplaint, Complaint.findOne, hfind, h1, hu, unlinkExisting,
      Complaint.findByIdAndDelete, hdel]
  · intro pre name post e himages hpre hstored hfault
    have hnotpre : uploadPath name ∉ pre.map uploadPath := by
      intro hmem
      obtain ⟨n, hn, hpath⟩ := List.mem_map.mp hmem
      have := hpre n hn
      rw [hpath, hfault] at this
      exact absurd this (by simp)
    have hstill : uploadPath name ∈ st.storage.filter fun q => q ∉ pre.map uploadPath := by
      rw [List.mem_filter]
      exact ⟨hstored, by simpa using hnotpre⟩
    have hu : unlinkExisting env st.storage c.images =
        (st.storage.filter fun q => q ∉ pre.map uploadPath, some e) := by
      rw [himages, unlinkExisting_append env pre (name :: post) st.storage hpre,
        unlinkExisting_cons]
      simp only [existsSync, unlinkSync, hstill, hfault, decide_True, if_true]
    simp [deleteComplaint, Complaint.findOne, hfind, h1, hu]

theorem deleteComplaint_deletion_policy_witness :
    ((∀ n ∈ complaintTwo.images, lockedFileEnv.unlinkFault (uploadPath n) = none) →
      lockedFileEnv.dbFault .findByIdAndDelete = none →
      deleteComplaint lockedFileEnv sampleState ⟨complaintTwo._id, complaintTwo.user⟩ =
        { response := some ⟨200, .message "Complaint deleted successfully"⟩
          state :=
            { sampleState with
              storage := sampleState.storage.filter fun p => p ∉ complaintTwo.images.map uploadPath
              complaints := removeById complaintTwo._id sampleState.complaints }
          analysed := [] }) ∧
    (∀ pre name post e, complaintTwo.images = pre ++ name :: post →
      (∀ n ∈ pre, lockedFileEnv.unlinkFault (uploadPath n) = none) →
      uploadPath name ∈ sampleState.storage →
      lockedFileEnv.unlinkFault (uploadPath name) = some e →
      deleteComplaint lockedFileEnv sampleState ⟨complaintTwo._id, complaintTwo.user⟩ =
        { response := some ⟨400, .message e⟩
          state :=
            { sampleState with
              storage := sampleState.storage.filter fun p => p ∉ pre.map uploadPath }
          analysed := [] }) :=
  deleteComplaint_deletion_policy lockedFileEnv sampleState complaintTwo (by decide)
    (by unfold UniqueIds; decide) rfl

/-! ## C14: deleting an image twice -/

theorem map_id_replaceById (id : Nat) (c' : Complaint) (h : c'._id = id) (l : List Complaint) :
    (replaceById id c' l).map (fun c => c._id) = l.map fun c => c._id := by
  induction l with
  | nil => simp [replaceById]
  | cons x xs ih =>
    by_cases hx : x._id = id
    · simp [replaceById, hx, h]
    · simp [replaceById, hx, ih]

theorem find_replaceById (id : Nat) (c' : Complaint) (h : c'._id = id) (l : List Complaint)
    (hex : ∃ x ∈ l, x._id = id) :
    (replaceById id c' l).find? (fun c => c._id == id) = some c' := by
  induction l with
  | nil => simp at hex
  | cons x xs ih =>
    by_cases hx : x._id = id
    · simp [replaceById, hx, h]
    · obtain ⟨y, hy, hyid⟩ := hex
      have hy' : y ∈ xs := by
        rcases List.mem_cons.mp hy with h1 | h1
        · exact absurd (h1 ▸ hyid) hx
        · exact h1
      simp [replaceById, hx, ih ⟨y, hy', hyid⟩]

/-- Replacing a document by itself changes nothing. -/
theorem replaceById_self (l : List Complaint) (h : (l.map fun c => c._id).Nodup)
    (c : Complaint) (hc : c ∈ l) : replaceById c._id c l = l := by
  induction l with
  | nil => simp [replaceById]
  | cons x xs ih =>
    rw [List.map_cons, List.nodup_cons] at h
    by_cases hx : x._id = c._id
    · have hxc : x = c := by
        rcases List.mem_cons.mp hc with h1 | h1
        · exact h1.symm
        · exact absurd (hx ▸ List.mem_map_of_mem (fun c => c._id) h1) h.1
      simp [replaceById, hxc]
    · have hc' : c ∈ xs := by
        rcases List.mem_cons.mp hc with h1 | h1
        · exact absurd (h1 ▸ rfl) hx
        · exact h1
      simp [replaceById, hx, ih h.2 hc']

/-- Once the lookup and the save of the image deletion route have succeeded, the collection
holds the saved document in place of the old one, whatever happens afterwards. -/
theorem deleteImage_complaints_of_saved (env : Env) (st : State) (c : Complaint)
    (ref : String) (hc : c ∈ st.complaints) (hids : UniqueIds st)
    (hfind : env.dbFault .findOne = none) (hsave : env.dbFault .save = none) :
    (deleteImage env st ⟨c._id, ref, c.user⟩).state.complaints =
      replaceById c._id
        (if (c.images.filter fun img => img ≠ ref) = c.images then c
          else { c with images := c.images.filter fun img => img ≠ ref, updatedAt := env.now })
        st.complaints := by
  have h1 := find_owner_eq_some st hids c hc
  simp only [deleteImage, Complaint.findOne, hfind, h1, Complaint.save, hsave]
  split
  · rfl
  · split <;> rfl

/-- The image deletion route either leaves the collection as it is or stores the saved
document. -/
theorem deleteImage_complaints (env : Env) (st : State) (c : Complaint)
    (ref : String) (hc : c ∈ st.complaints) (hids : UniqueIds st) :
    (deleteImage env st ⟨c._id, ref, c.user⟩).state.complaints = st.complaints ∨
    (deleteImage env st ⟨c._id, ref, c.user⟩).state.complaints =
      replaceById c._id
        (if (c.images.filter fun img => img ≠ ref) = c.images then c
          else { c with images := c.images.filter fun img => img ≠ ref, updatedAt := env.now })
        st.complaints := by
  cases hfind : env.dbFault .findOne with
  | some e => left; simp [deleteImage, Complaint.findOne, hfind]
  | none =>
    cases hsave : env.dbFault .save with
    | some e =>
      left
      simp [deleteImage, Complaint.findOne, hfind, find_owner_eq_some st hids c hc,
        Complaint.save, hsave]
    | none => exact Or.inr (deleteImage_complaints_of_saved env st c ref hc hids hfind hsave)

/-- Deleting a reference that the complaint does not have leaves its image sequence as it
is, whether or not the request fails on the way. -/
theorem deleteImage_absent_ref (env : Env) (st : State) (c : Complaint) (ref : String)
    (hc : c ∈ st.complaints) (hids : UniqueIds st) (href : ref ∉ c.images) :
    imagesOf (deleteImage env st ⟨c._id, ref, c.user⟩).state c._id = some c.images := by
  have hsame : (c.images.filter fun img => img ≠ ref) = c.images := by
    rw [List.filter_eq_self]
    intro a ha
    have : a ≠ ref := fun h => href (h ▸ ha)
    simpa using this
  have hst : (deleteImage env st ⟨c._id, ref, c.user⟩).state.complaints = st.complaints := by
    rcases deleteImage_complaints env st c ref hc hids with h | h
    · exact h
    · rw [h, if_pos hsame]
      exact replaceById_self st.complaints hids c hc
  simp [imagesOf, hst, find_id_eq_some st hids c hc]

/-- The saved document of a successful save: same identifier and owner, the image sequence
without the reference. -/
theorem deleteImage_saved (env : Env) (st : State) (c : Complaint)
    (ref : String) (hc : c ∈ st.complaints) (hids : UniqueIds st)
    (hfind : env.dbFault .findOne = none) (hsave : env.dbFault .save = none) :
    ∃ c₁ : Complaint,
      (deleteImage env st ⟨c._id, ref, c.user⟩).state.complaints =
        replaceById c._id c₁ st.complaints ∧
      c₁._id = c._id ∧ c₁.user = c.user ∧
      c₁.images = c.images.filter fun img => img ≠ ref := by
  have h := deleteImage_complaints_of_saved env st c ref hc hids hfind hsave
  by_cases hsame : (c.images.filter fun img => img ≠ ref) = c.images
  · rw [if_pos hsame] at h
    exact ⟨c, h, rfl, rfl, hsame.symm⟩
  · rw [if_neg hsame] at h
    exact ⟨_, h, rfl, rfl, rfl⟩

/-- C14. For a complaint of the collection and its owner: deleting a reference that is not in
the image sequence leaves the sequence unchanged; and once a deletion has been saved, the
sequence is the old one without the reference, and deleting the same reference again (in any
environment) leaves that sequence as it is. (Identifiers are unique.) -/
theorem deleteImage_idempotent (env env' : Env) (st : State) (c : Complaint) (ref : String)
    (hc : c ∈ st.complaints) (hids : UniqueIds st) :
    (ref ∉ c.images →
      imagesOf (deleteImage env st ⟨c._id, ref, c.user⟩).state c._id = some c.images) ∧
    (env.dbFault .findOne = none → env.dbFault .save = none →
      imagesOf (deleteImage env st ⟨c._id, ref, c.user⟩).state c._id =
        some (c.images.filter fun img => img ≠ ref) ∧
      imagesOf (deleteImage env' (deleteImage env st ⟨c._id, ref, c.user⟩).state
          ⟨c._id, ref, c.user⟩).state c._id =
        imagesOf (deleteImage env st ⟨c._id, ref, c.user⟩).state c._id) := by
  refine ⟨deleteImage_absent_ref env st c ref hc hids, ?_⟩
  intro hfind hsave
  obtain ⟨c₁, hst, hid, huser, himg⟩ := deleteImage_saved env st c ref hc hids hfind hsave
  have hmem : c₁ ∈ (deleteImage env st ⟨c._id, ref, c.user⟩).state.complaints := by
    rw [hst]
    exact mem_replaceById _ _ _ ⟨c, hc, rfl⟩
  have hids₁ : UniqueIds (deleteImage env st ⟨c._id, ref, c.user⟩).state := by
    unfold UniqueIds
    rw [hst, map_id_replaceById c._id c₁ hid]
    exact hids
  have hfirst : imagesOf (deleteImage env st ⟨c._id, ref, c.user⟩).state c._id =
      some (c.images.filter fun img => img ≠ ref) := by
    simp [imagesOf, hst, find_replaceById c._id c₁ hid st.complaints ⟨c, hc, rfl⟩, himg]
  have href : ref ∉ c₁.images := by
    rw [himg]
    intro hmem'
    have := (List.mem_filter.mp hmem').2
    simp at this
  have hsecond := deleteImage_absent_ref env' _ c₁ ref hmem hids₁ href
  rw [hid, huser] at hsecond
  rw [hsecond, hfirst, himg]
  exact ⟨rfl, rfl⟩

theorem deleteImage_idempotent_witness :
    ("b.jpg" ∉ complaintTwo.images →
      imagesOf (deleteImage sampleEnv sampleState
        ⟨complaintTwo._id, "b.jpg", complaintTwo.user⟩).state complaintTwo._id =
        some complaintTwo.images) ∧
    (sampleEnv.dbFault .findOne = none → sampleEnv.dbFault .save = none →
      imagesOf (deleteImage sampleEnv sampleState
        ⟨complaintTwo._id, "b.jpg", complaintTwo.user⟩).state complaintTwo._id =
        some (complaintTwo.images.filter fun img => img ≠ "b.jpg") ∧
      imagesOf (deleteImage lockedFileEnv (deleteImage sampleEnv sampleState
          ⟨complaintTwo._id, "b.jpg", complaintTwo.user⟩).state
          ⟨complaintTwo._id, "b.jpg", complaintTwo.user⟩).state complaintTwo._id =
        imagesOf (deleteImage sampleEnv sampleState
          ⟨complaintTwo._id, "b.jpg", complaintTwo.user⟩).state complaintTwo._id) :=
  deleteImage_idempotent sampleEnv lockedFileEnv sampleState complaintTwo "b.jpg"
    (by decide) (by unfold UniqueIds; decide)

/-! ## C15: what a created complaint carries -/

/-- A document inserted by `Complaint.create` has the fresh identifier, the schema defaults
and the owner it was given; the collection grows by that document. -/
theorem create_ok (env : Env) (st st' : State) (d : NewComplaint) (c : Complaint)
    (h : Complaint.create env st d = .ok (c, st')) :
    st'.complaints = st.complaints ++ [c] ∧ st'.nextId = st.nextId + 1 ∧
      st'.storage = st.storage ∧ st'.users = st.users ∧
      c._id = st.nextId ∧ c.status = "Pending" ∧ c.priority = "Medium" ∧ c.user = d.user ∧
      c.assignedTo = none ∧ c.images = d.images := by
  unfold Complaint.create at h
  split at h
  · split at h
    · simp at h
    · simp only [Except.ok.injEq, Prod.mk.injEq] at h
      obtain ⟨hc, hst⟩ := h
      subst hc
      subst hst
      simp
  · simp at h

theorem cleanupCatch_response_ne_created (env : Env) (st : State)
    (files : Option (List UploadedFile)) (e : String) (analysed : List String) (body : ResBody) :
    (cleanupCatch env st files e analysed).response ≠ some ⟨201, body⟩ := by
  rcases (cleanupCatch_complaints env st files e analysed).2.2 with h | h <;> simp [h]

/-- C15. Whenever the create route answers 201, the collection has grown by exactly one
record, and that record has status Pending, priority Medium, the acting user as owner and no
assigned authority, whatever the request body carries in `status`, `priority`, `user` or
`assignedTo`. -/
theorem createComplaint_defaults (env : Env) (st : State) (req : CreateRequest) (body : ResBody)
    (h : (createComplaint env st req).response = some ⟨201, body⟩) :
    ∃ c : Complaint,
      (createComplaint env st req).state.complaints = st.complaints ++ [c] ∧
      c.status = "Pending" ∧ c.priority = "Medium" ∧ c.user = req.user ∧
      c.assignedTo = none := by
  unfold createComplaint at h ⊢
  cases hfiles : req.files with
  | none => simp [hfiles] at h
  | some files =>
    simp only [hfiles] at h ⊢
    by_cases hlen : files.length = 0
    · simp [hlen] at h
    · simp only [hlen, if_false] at h ⊢
      rcases hs : screenImages env st.storage files with ⟨outcome, analysed⟩
      simp only [hs] at h ⊢
      cases outcome with
      | rejected fs' message => simp at h
      | threw e => exact absurd h (cleanupCatch_response_ne_created _ _ _ _ _ _)
      | passed =>
        simp only at h ⊢
        cases hcreate : Complaint.create env st
            { title := req.body.title, description := req.body.description,
              category := req.body.category, location := req.body.location,
              images := files.map fun f => f.filename, user := req.user } with
        | error e =>
          simp only [hcreate] at h
          exact absurd h (cleanupCatch_response_ne_created _ _ _ _ _ _)
        | ok created =>
          obtain ⟨c, st'⟩ := created
          simp only [hcreate] at h ⊢
          obtain ⟨h1, -, -, -, -, h2, h3, h4, h5, -⟩ := create_ok env st st' _ c hcreate
          cases hfind : Complaint.findById env st' c._id with
          | error e =>
            simp only [hfind] at h
            exact absurd h (cleanupCatch_response_ne_created _ _ _ _ _ _)
          | ok found =>
            simp only [hfind]
            exact ⟨c, h1, h2, h3, h4, h5⟩

theorem createComplaint_defaults_witness :
    ∃ c : Complaint,
      (createComplaint sampleEnv uploadedState
        ⟨some [photoA],
          { sampleBody with status := some "Resolved", priority := some "High",
                            user := some "2", assignedTo := some "9" }, 1⟩).state.complaints =
        uploadedState.complaints ++ [c] ∧
      c.status = "Pending" ∧ c.priority = "Medium" ∧ c.user = 1 ∧ c.assignedTo = none :=
  createComplaint_defaults sampleEnv uploadedState
    ⟨some [photoA],
      { sampleBody with status := some "Resolved", priority := some "High",
                        user := some "2", assignedTo := some "9" }, 1⟩
    (.complaint (some (populate uploadedState
      { _id := 0, title := "Pothole", description := "Deep pothole",
        category := "Infrastructure", status := "Pending", location := "Main St",
        images := ["a.jpg"], user := 1, assignedTo := none, priority := "Medium",
        createdAt := 100, updatedAt := 100 })))
    (by decide)

/-! ## C16 and C17: error paths of the create and update routes -/

/-- C16 (the code at the failing input). One image is uploaded and passes, the record is
created, and the read-back `Complaint.findById` fails. The request is answered 400 and the
uploaded file is deleted, but the record stays in the collection, still referring to the
deleted file. -/
theorem createComplaint_readback_failure_keeps_record :
    createComplaint readBackFailureEnv threePhotosState ⟨some [photoA], sampleBody, 1⟩ =
      { response := some ⟨400, .message "connection lost"⟩
        state :=
          { complaints :=
              [{ _id := 0, title := "Pothole", description := "Deep pothole",
                 category := "Infrastructure", status := "Pending", location := "Main St",
                 images := ["a.jpg"], user := 1, assignedTo := none, priority := "Medium",
                 createdAt := 100, updatedAt := 100 }]
            storage := ["public/uploads/b.jpg", "public/uploads/c.jpg"]
            users := sampleUsers
            nextId := 1 }
        analysed := ["public/uploads/a.jpg"] } := by
  decide

/-- C17 (the code at the failing input). User 1 sends an update with the uploaded file
`f.jpg` for complaint 2, which belongs to user 2. The request is answered 404 and nothing is
deleted: `f.jpg` stays on disk, referred to by no complaint. -/
theorem updateComplaint_notFound_keeps_upload :
    updateComplaint sampleEnv pendingUploadState ⟨2, some [photoF], sampleBody, 1⟩ =
        notFound pendingUploadState ∧
      photoF.path ∈ pendingUploadState.storage ∧
      ∀ c ∈ pendingUploadState.complaints, photoF.filename ∉ c.images := by
  decide

/-! ## C18: the owner of a complaint -/

/-- Replacing a document by one with the same identifier and owner keeps the identifiers
and owners of the collection. -/
theorem owners_replaceById (l : List Complaint) (h : (l.map fun c => c._id).Nodup)
    (c c' : Complaint) (hc : c ∈ l) (hid : c'._id = c._id) (huser : c'.user = c.user) :
    (replaceById c._id c' l).map (fun d => (d._id, d.user)) =
      l.map fun d => (d._id, d.user) := by
  induction l with
  | nil => simp [replaceById]
  | cons x xs ih =>
    rw [List.map_cons, List.nodup_cons] at h
    by_cases hx : x._id = c._id
    · have hxc : x = c := by
        rcases List.mem_cons.mp hc with h1 | h1
        · exact h1.symm
        · exact absurd (hx ▸ List.mem_map_of_mem (fun c => c._id) h1) h.1
      simp [replaceById, hxc, hid, huser]
    · have hc' : c ∈ xs := by
        rcases List.mem_cons.mp hc with h1 | h1
        · exact absurd (h1 ▸ rfl) hx
        · exact h1
      simp [replaceById, hx, ih h.2 hc']

theorem removeById_sublist (id : Nat) (l : List Complaint) : (removeById id l).Sublist l := by
  induction l with
  | nil => simp [removeById]
  | cons x xs ih =>
    by_cases hx : x._id = id
    · simp [removeById, hx]
    · simp [removeById, hx, ih]

/-- An update that keeps identifier and owner keeps the identifiers and owners of the
collection. -/
theorem findByIdAndUpdate_owners (env : Env) (st st' : State) (id : Nat)
    (update : Complaint → Complaint) (found : Option Complaint) (hids : UniqueIds st)
    (h : Complaint.findByIdAndUpdate env st id update = .ok (found, st'))
    (hupd : ∀ c, (update c)._id = c._id ∧ (update c).user = c.user) :
    owners st' = owners st ∧ st'.nextId = st.nextId := by
  unfold Complaint.findByIdAndUpdate at h
  cases hf : env.dbFault .findByIdAndUpdate with
  | some e => simp [hf] at h
  | none =>
    cases hfind : st.complaints.find? (fun c => c._id == id) with
    | none =>
      simp only [hf, hfind, Except.ok.injEq, Prod.mk.injEq] at h
      rw [← h.2]
      exact ⟨rfl, rfl⟩
    | some c =>
      simp only [hf, hfind, Except.ok.injEq, Prod.mk.injEq] at h
      rw [← h.2]
      have hmem := List.mem_of_find?_eq_some hfind
      have hcid : c._id = id := by simpa using List.find?_some hfind
      refine ⟨?_, rfl⟩
      unfold owners
      simp only
      rw [← hcid]
      exact owners_replaceById st.complaints hids c _ hmem (hupd c).1 (hupd c).2

theorem cleanupCatch_owners (env : Env) (st : State) (files : Option (List UploadedFile))
    (e : String) (analysed : List String) :
    owners (cleanupCatch env st files e analysed).state = owners st ∧
      (cleanupCatch env st files e analysed).state.nextId = st.nextId := by
  unfold cleanupCatch
  cases files with
  | none => exact ⟨rfl, rfl⟩
  | some fl =>
    rcases h : unlinkEach env st.storage fl with ⟨fs', _ | err⟩ <;> simp [h, owners]

theorem updateStatus_owners (env : Env) (st : State) (req : AuthorityRequest)
    (hids : UniqueIds st) :
    owners (updateStatus env st req).state = owners st ∧
      (updateStatus env st req).state.nextId = st.nextId := by
  unfold updateStatus
  cases h : Complaint.findByIdAndUpdate env st req.id
      (fun c => { c with status := req.body.status.getD c.status, assignedTo := some req.user })
    with
  | error e => exact ⟨rfl, rfl⟩
  | ok r =>
    obtain ⟨found, st'⟩ := r
    have := findByIdAndUpdate_owners env st st' req.id _ found hids h (fun c => ⟨rfl, rfl⟩)
    cases found <;> exact this

theorem updatePriority_owners (env : Env) (st : State) (req : AuthorityRequest)
    (hids : UniqueIds st) :
    owners (updatePriority env st req).state = owners st ∧
      (updatePriority env st req).state.nextId = st.nextId := by
  unfold updatePriority
  cases h : Complaint.findByIdAndUpdate env st req.id
      (fun c => { c with priority := req.body.priority.getD c.priority }) with
  | error e => exact ⟨rfl, rfl⟩
  | ok r =>
    obtain ⟨found, st'⟩ := r
    have := findByIdAndUpdate_owners env st st' req.id _ found hids h (fun c => ⟨rfl, rfl⟩)
    cases found <;> exact this

theorem updateComplaint_owners (env : Env) (st : State) (req : UpdateRequest)
    (hids : UniqueIds st) :
    owners (updateComplaint env st req).state = owners st ∧
      (updateComplaint env st req).state.nextId = st.nextId := by
  unfold updateComplaint
  cases hone : Complaint.findOne env st req.id req.user with
  | error e => exact cleanupCatch_owners env st req.files e []
  | ok found =>
    cases found with
    | none => exact ⟨rfl, rfl⟩
    | some complaint =>
      simp only
      split
      · exact cleanupCatch_owners env st req.files _ []
      · rename_i updated st' h
        exact findByIdAndUpdate_owners env st st' req.id _ updated hids h
          (fun c => ⟨rfl, rfl⟩)

theorem findOne_mem (env : Env) (st : State) (id uid : Nat) (c : Complaint)
    (h : Complaint.findOne env st id uid = .ok (some c)) : c ∈ st.complaints := by
  unfold Complaint.findOne at h
  cases hf : env.dbFault .findOne with
  | some e => simp [hf] at h
  | none =>
    simp only [hf, Except.ok.injEq] at h
    exact List.mem_of_find?_eq_some h

theorem save_owners (env : Env) (st st₁ : State) (c saved : Complaint) (images : List String)
    (hids : UniqueIds st) (hc : c ∈ st.complaints)
    (h : Complaint.save env st c images = .ok (saved, st₁)) :
    owners st₁ = owners st ∧ st₁.nextId = st.nextId := by
  unfold Complaint.save at h
  cases hf : env.dbFault .save with
  | some e => simp [hf] at h
  | none =>
    simp only [hf, Except.ok.injEq, Prod.mk.injEq] at h
    rw [← h.2]
    refine ⟨?_, rfl⟩
    unfold owners
    simp only
    apply owners_replaceById st.complaints hids c _ hc
    · split <;> rfl
    · split <;> rfl

theorem deleteImage_owners (env : Env) (st : State) (req : DeleteImageRequest)
    (hids : UniqueIds st) :
    owners (deleteImage env st req).state = owners st ∧
      (deleteImage env st req).state.nextId = st.nextId := by
  unfold deleteImage
  cases hone : Complaint.findOne env st req.id req.user with
  | error e => exact ⟨rfl, rfl⟩
  | ok found =>
    cases found with
    | none => exact ⟨rfl, rfl⟩
    | some complaint =>
      have hmem := findOne_mem env st req.id req.user complaint hone
      simp only
      cases hsave : Complaint.save env st complaint
          (complaint.images.filter fun img => img ≠ req.imageName) with
      | error e => exact ⟨rfl, rfl⟩
      | ok r =>
        obtain ⟨saved, st₁⟩ := r
        have hown := save_owners env st st₁ complaint saved _ hids hmem hsave
        simp only
        split
        · exact hown
        · split <;> exact hown

theorem deleteComplaint_owners (env : Env) (st : State) (req : DeleteRequest) :
    (owners (deleteComplaint env st req).state).Sublist (owners st) ∧
      (deleteComplaint env st req).state.nextId = st.nextId := by
  unfold deleteComplaint
  cases hone : Complaint.findOne env st req.id req.user with
  | error e => exact ⟨List.Sublist.refl _, rfl⟩
  | ok found =>
    cases found with
    | none => exact ⟨List.Sublist.refl _, rfl⟩
    | some complaint =>
      simp only
      rcases hu : unlinkExisting env st.storage complaint.images with ⟨fs', _ | e⟩
      · simp only
        cases hd : env.dbFault .findByIdAndDelete with
        | some e =>
          simp only [Complaint.findByIdAndDelete, hd]
          exact ⟨List.Sublist.refl _, trivial⟩
        | none =>
          simp only [Complaint.findByIdAndDelete, hd]
          exact ⟨(removeById_sublist req.id st.complaints).map _, trivial⟩
      · exact ⟨List.Sublist.refl _, rfl⟩

/-- The create route leaves the collection as it is or adds one record, owned by the acting
user, under the fresh identifier. -/
theorem createComplaint_owners (env : Env) (st : State) (req : CreateRequest) :
    (owners (createComplaint env st req).state = owners st ∧
      (createComplaint env st req).state.nextId = st.nextId) ∨
    (owners (createComplaint env st req).state = owners st ++ [(st.nextId, req.user)] ∧
      (createComplaint env st req).state.nextId = st.nextId + 1) := by
  unfold createComplaint
  cases hfiles : req.files with
  | none => exact Or.inl ⟨rfl, rfl⟩
  | some files =>
    simp only
    by_cases hlen : files.length = 0
    · rw [if_pos hlen]
      exact Or.inl ⟨rfl, rfl⟩
    · rw [if_neg hlen]
      rcases hs : screenImages env st.storage files with ⟨outcome, analysed⟩
      cases outcome with
      | rejected fs' message => exact Or.inl ⟨rfl, rfl⟩
      | threw e => exact Or.inl (cleanupCatch_owners env st _ e analysed)
      | passed =>
        simp only
        cases hcreate : Complaint.create env st
            { title := req.body.title, description := req.body.description,
              category := req.body.category, location := req.body.location,
              images := files.map fun f => f.filename, user := req.user } with
        | error e => exact Or.inl (cleanupCatch_owners env st _ e analysed)
        | ok created =>
          obtain ⟨c, st'⟩ := created
          obtain ⟨h1, h2, -, -, h3, -, -, h4, -, -⟩ := create_ok env st st' _ c hcreate
          have hown : owners st' = owners st ++ [(st.nextId, req.user)] := by
            simp [owners, h1, h3, h4]
          right
          simp only
          cases hfind : Complaint.findById env st' c._id with
          | error e =>
            obtain ⟨k1, k2⟩ := cleanupCatch_owners env st' (some files) e analysed
            exact ⟨k1.trans hown, k2.trans h2⟩
          | ok found => exact ⟨hown, h2⟩

theorem wellFormed_iff_owners (st : State) :
    WellFormed st ↔
      ((owners st).map Prod.fst).Nodup ∧ ∀ k ∈ owners st, k.1 < st.nextId := by
  unfold WellFormed UniqueIds owners
  simp [List.map_map, Function.comp_def]

/-- One request, seen on the identifiers and owners of the collection: nothing is added and
no owner changes, unless the request is a creation, which adds one record owned by the acting
user under the fresh identifier. -/
theorem step_owners (env : Env) (st : State) (op : Op) (hids : UniqueIds st) :
    ((owners (step env st op).state).Sublist (owners st) ∧
      (step env st op).state.nextId = st.nextId) ∨
    (∃ req, op = .create req ∧
      owners (step env st op).state = owners st ++ [(st.nextId, req.user)] ∧
      (step env st op).state.nextId = st.nextId + 1) := by
  cases op with
  | create req =>
    rcases createComplaint_owners env (upload st req.files) req with h | h
    · exact Or.inl ⟨h.1 ▸ List.Sublist.refl _, h.2⟩
    · exact Or.inr ⟨req, rfl, h.1, h.2⟩
  | update req =>
    have h := updateComplaint_owners env (upload st req.files) req hids
    exact Or.inl ⟨h.1 ▸ List.Sublist.refl _, h.2⟩
  | deleteImage req =>
    have h := deleteImage_owners env st req hids
    exact Or.inl ⟨h.1 ▸ List.Sublist.refl _, h.2⟩
  | status req =>
    have h := updateStatus_owners env st req hids
    exact Or.inl ⟨h.1 ▸ List.Sublist.refl _, h.2⟩
  | priority req =>
    have h := updatePriority_owners env st req hids
    exact Or.inl ⟨h.1 ▸ List.Sublist.refl _, h.2⟩
  | delete req => exact Or.inl (deleteComplaint_owners env st req)

/-- Every request keeps the identifiers unique and below the next fresh one. -/
theorem step_wellFormed (env : Env) (st : State) (op : Op) (hwf : WellFormed st) :
    WellFormed (step env st op).state := by
  have hst := (wellFormed_iff_owners st).mp hwf
  rw [wellFormed_iff_owners]
  rcases step_owners env st op hwf.1 with ⟨hsub, hnext⟩ | ⟨req, -, hown, hnext⟩
  · refine ⟨hst.1.sublist (hsub.map _), ?_⟩
    intro k hk
    rw [hnext]
    exact hst.2 k (hsub.subset hk)
  · rw [hown, hnext]
    constructor
    · rw [List.map_append, List.nodup_append]
      refine ⟨hst.1, by simp, ?_⟩
      intro a ha hb
      obtain ⟨k, hk, rfl⟩ := List.mem_map.mp ha
      have hlt := hst.2 k hk
      have : k.1 = st.nextId := by simpa using hb
      omega
    · intro k hk
      rcases List.mem_append.mp hk with h | h
      · exact Nat.lt_succ_of_lt (hst.2 k h)
      · have : k = (st.nextId, req.user) := by simpa using h
        rw [this]
        exact Nat.lt_succ_self _

/-- C18. Along every sequence of workflow operations (creation, update, image deletion,
status, priority, complaint deletion, with any requests and environments) from a well-formed
collection, identifiers stay unique, and every complaint of the final collection has the
owner it had in the initial collection or, when it was created on the way, the user who
created it: no operation changes an owner. -/
theorem owner_fixed_at_creation (ops : List (Env × Op)) :
    ∀ st₀ : State, WellFormed st₀ →
      WellFormed (run st₀ ops) ∧
      ∀ d ∈ (run st₀ ops).complaints,
        (∃ d₀ ∈ st₀.complaints, d₀._id = d._id ∧ d₀.user = d.user) ∨
        (∃ pre env req post, ops = pre ++ (env, Op.create req) :: post ∧
          (run st₀ pre).nextId = d._id ∧ req.user = d.user) := by
  induction ops with
  | nil =>
    intro st₀ hwf
    exact ⟨hwf, fun d hd => Or.inl ⟨d, hd, rfl, rfl⟩⟩
  | cons x rest ih =>
    intro st₀ hwf
    obtain ⟨env, op⟩ := x
    have hwf₁ := step_wellFormed env st₀ op hwf
    obtain ⟨hfinal, hown⟩ := ih (step env st₀ op).state hwf₁
    refine ⟨hfinal, ?_⟩
    intro d hd
    rcases hown d hd with ⟨d₁, hd₁, hid, huser⟩ | ⟨pre, env', req, post, hops, hnext, hreq⟩
    · have hkey : (d₁._id, d₁.user) ∈ owners (step env st₀ op).state :=
        List.mem_map_of_mem (fun c => (c._id, c.user)) hd₁
      rcases step_owners env st₀ op hwf.1 with ⟨hsub, -⟩ | ⟨req, hop, hadd, -⟩
      · obtain ⟨d₀, hd₀, hk⟩ := List.mem_map.mp (hsub.subset hkey)
        simp only [Prod.mk.injEq] at hk
        exact Or.inl ⟨d₀, hd₀, hk.1.trans hid, hk.2.trans huser⟩
      · rw [hadd] at hkey
        rcases List.mem_append.mp hkey with h | h
        · obtain ⟨d₀, hd₀, hk⟩ := List.mem_map.mp h
          simp only [Prod.mk.injEq] at hk
          exact Or.inl ⟨d₀, hd₀, hk.1.trans hid, hk.2.trans huser⟩
        · have hk : d₁._id = st₀.nextId ∧ d₁.user = req.user := by simpa using h
          refine Or.inr ⟨[], env, req, rest, ?_, ?_, ?_⟩
          · rw [hop]
            rfl
          · exact hk.1.symm.trans hid
          · exact hk.2.symm.trans huser
    · refine Or.inr ⟨(env, op) :: pre, env', req, post, ?_, hnext, hreq⟩
      rw [hops]
      rfl

theorem owner_fixed_at_creation_witness :
    WellFormed (run sampleState twoCreations) ∧
      ∀ d ∈ (run sampleState twoCreations).complaints,
        (∃ d₀ ∈ sampleState.complaints, d₀._id = d._id ∧ d₀.user = d.user) ∨
        (∃ pre env req post, twoCreations = pre ++ (env, Op.create req) :: post ∧
          (run sampleState pre).nextId = d._id ∧ req.user = d.user) :=
  owner_fixed_at_creation twoCreations sampleState (by unfold WellFormed UniqueIds; decide)

/-! ## C19 and C20: two invariants the routes do not keep -/

/-- C19 (the code at the failing input). After two creations every status and priority is an
enumerated value. The authority (user 9) then sends the status `Banana` for complaint 0, or
the priority `Urgent`: the route stores the value as it is, and the collection holds a
complaint whose status, or priority, is not an enumerated value. -/
theorem authority_updates_not_validated :
    EnumeratedValues (run emptyState twoCreations) ∧
      (run emptyState (twoCreations ++
        [(sampleEnv, .status ⟨0, { emptyBody with status := some "Banana" }, 9⟩)])).complaints.map
          (fun c => c.status) = ["Banana", "Pending"] ∧
      ¬ EnumeratedValues (run emptyState (twoCreations ++
        [(sampleEnv, .status ⟨0, { emptyBody with status := some "Banana" }, 9⟩)])) ∧
      (run emptyState (twoCreations ++
        [(sampleEnv, .priority ⟨0, { emptyBody with priority := some "Urgent" }, 9⟩)])).complaints.map
          (fun c => c.priority) = ["Urgent", "Medium"] ∧
      ¬ EnumeratedValues (run emptyState (twoCreations ++
        [(sampleEnv, .priority ⟨0, { emptyBody with priority := some "Urgent" }, 9⟩)])) := by
  unfold EnumeratedValues
  decide

/-- C20 (the code at the failing input). After two creations every image reference names a
file on disk. User 1 then asks to delete the image `f.jpg` from the own complaint 0, which does
not reference it: the route answers 200 and deletes the file `f.jpg`, which complaint 1 of user
2 still references. Likewise, a creation whose read-back fails deletes the files of the record
it has just persisted. -/
theorem deleteImage_deletes_file_of_other_complaint :
    ImagesStored (run emptyState twoCreations) ∧
      (step sampleEnv (run emptyState twoCreations)
        (.deleteImage ⟨0, "f.jpg", 1⟩)).response.map (fun r => r.status) = some 200 ∧
      imagesOf (run emptyState (twoCreations ++
        [(sampleEnv, .deleteImage ⟨0, "f.jpg", 1⟩)])) 1 = some ["f.jpg"] ∧
      existsSync (run emptyState (twoCreations ++
        [(sampleEnv, .deleteImage ⟨0, "f.jpg", 1⟩)])).storage (uploadPath "f.jpg") = false ∧
      ¬ ImagesStored (run emptyState (twoCreations ++
        [(sampleEnv, .deleteImage ⟨0, "f.jpg", 1⟩)])) ∧
      ¬ ImagesStored (step readBackFailureEnv emptyState
        (.create ⟨some [photoA], sampleBody, 1⟩)).state := by
  unfold ImagesStored
  decide

/-! ## C21: the user routes and the fields of the authority -/

/-- Replacing a document by one with the same value under `f` keeps the values under `f` of
the collection. -/
theorem map_replaceById_of_eq {α : Type} (f : Complaint → α) (l : List Complaint)
    (h : (l.map fun c => c._id).Nodup) (c c' : Complaint) (hc : c ∈ l) (hf : f c' = f c) :
    (replaceById c._id c' l).map f = l.map f := by
  induction l with
  | nil => simp [replaceById]
  | cons x xs ih =>
    rw [List.map_cons, List.nodup_cons] at h
    by_cases hx : x._id = c._id
    · have hxc : x = c := by
        rcases List.mem_cons.mp hc with h1 | h1
        · exact h1.symm
        · exact absurd (hx ▸ List.mem_map_of_mem (fun c => c._id) h1) h.1
      simp [replaceById, hxc, hf]
    · have hc' : c ∈ xs := by
        rcases List.mem_cons.mp hc with h1 | h1
        · exact absurd (h1 ▸ rfl) hx
        · exact h1
      simp [replaceById, hx, ih h.2 hc']

/-- An update that keeps the value under `f` of every document keeps the values under `f`
of the collection. -/
theorem findByIdAndUpdate_map {α : Type} (f : Complaint → α) (env : Env) (st st' : State)
    (id : Nat) (update : Complaint → Complaint) (found : Option Complaint)
    (hids : UniqueIds st)
    (h : Complaint.findByIdAndUpdate env st id update = .ok (found, st'))
    (hupd : ∀ c, f { update c with updatedAt := env.now } = f c) :
    st'.complaints.map f = st.complaints.map f := by
  unfold Complaint.findByIdAndUpdate at h
  cases hf : env.dbFault .findByIdAndUpdate with
  | some e => simp [hf] at h
  | none =>
    cases hfind : st.complaints.find? (fun c => c._id == id) with
    | none =>
      simp only [hf, hfind, Except.ok.injEq, Prod.mk.injEq] at h
      rw [← h.2]
    | some c =>
      simp only [hf, hfind, Except.ok.injEq, Prod.mk.injEq] at h
      rw [← h.2]
      have hmem := List.mem_of_find?_eq_some hfind
      have hcid : c._id = id := by simpa using List.find?_some hfind
      simp only
      rw [← hcid]
      exact map_replaceById_of_eq f st.complaints hids c _ hmem (hupd c)

theorem cleanupCatch_state_complaints (env : Env) (st : State)
    (files : Option (List UploadedFile)) (e : String) (analysed : List String) :
    (cleanupCatch env st files e analysed).state.complaints = st.complaints :=
  (cleanupCatch_complaints env st files e analysed).1

theorem updateComplaint_authorityFields (env : Env) (st : State) (req : UpdateRequest)
    (hids : UniqueIds st) :
    authorityFields (updateComplaint env st req).state = authorityFields st := by
  unfold authorityFields updateComplaint
  cases hone : Complaint.findOne env st req.id req.user with
  | error e => rw [cleanupCatch_state_complaints]
  | ok found =>
    cases found with
    | none => rfl
    | some complaint =>
      simp only
      split
      · rw [cleanupCatch_state_complaints]
      · rename_i updated st' h
        exact findByIdAndUpdate_map _ env st st' req.id _ updated hids h (fun c => rfl)

theorem deleteImage_authorityFields (env : Env) (st : State) (req : DeleteImageRequest)
    (hids : UniqueIds st) :
    authorityFields (deleteImage env st req).state = authorityFields st := by
  unfold authorityFields deleteImage
  cases hone : Complaint.findOne env st req.id req.user with
  | error e => rfl
  | ok found =>
    cases found with
    | none => rfl
    | some complaint =>
      have hmem := findOne_mem env st req.id req.user complaint hone
      simp only
      cases hsave : Complaint.save env st complaint
          (complaint.images.filter fun img => img ≠ req.imageName) with
      | error e => rfl
      | ok r =>
        obtain ⟨saved, st₁⟩ := r
        have hst₁ : st₁.complaints.map (fun c => (c._id, c.status, c.priority, c.assignedTo)) =
            st.complaints.map fun c => (c._id, c.status, c.priority, c.assignedTo) := by
          unfold Complaint.save at hsave
          cases hf : env.dbFault .save with
          | some e => simp [hf] at hsave
          | none =>
            simp only [hf, Except.ok.injEq, Prod.mk.injEq] at hsave
            rw [← hsave.2]
            simp only
            apply map_replaceById_of_eq _ st.complaints hids complaint _ hmem
            split <;> rfl
        simp only
        split
        · exact hst₁
        · split <;> exact hst₁

/-- The create route leaves every existing record as it is: the collection afterwards is the
old one, possibly followed by one new record. -/
theorem createComplaint_complaints (env : Env) (st : State) (req : CreateRequest) :
    (createComplaint env st req).state.complaints = st.complaints ∨
      ∃ c, (createComplaint env st req).state.complaints = st.complaints ++ [c] := by
  unfold createComplaint
  cases hfiles : req.files with
  | none => exact Or.inl rfl
  | some files =>
    simp only
    by_cases hlen : files.length = 0
    · rw [if_pos hlen]
      exact Or.inl rfl
    · rw [if_neg hlen]
      rcases hs : screenImages env st.storage files with ⟨outcome, analysed⟩
      cases outcome with
      | rejected fs' message => exact Or.inl rfl
      | threw e => exact Or.inl (cleanupCatch_state_complaints env st _ e analysed)
      | passed =>
        simp only
        cases hcreate : Complaint.create env st
            { title := req.body.title, description := req.body.description,
              category := req.body.category, location := req.body.location,
              images := files.map fun f => f.filename, user := req.user } with
        | error e => exact Or.inl (cleanupCatch_state_complaints env st _ e analysed)
        | ok created =>
          obtain ⟨c, st'⟩ := created
          have h1 := (create_ok env st st' _ c hcreate).1
          right
          refine ⟨c, ?_⟩
          simp only
          cases hfind : Complaint.findById env st' c._id with
          | error e => exact (cleanupCatch_state_complaints env st' _ e analysed).trans h1
          | ok found => exact h1

/-- C21. The operations of the user role never change the status, the priority or the
assignee of an existing complaint, whatever the request carries: an update and an image
deletion leave these fields of every complaint as they are, a creation leaves every existing
record as it is (it can only add one), and a deletion only removes records. (Identifiers are
unique.) -/
theorem user_routes_keep_authority_fields (env : Env) (st : State) (hids : UniqueIds st) :
    (∀ req, authorityFields (updateComplaint env st req).state = authorityFields st) ∧
    (∀ req, authorityFields (deleteImage env st req).state = authorityFields st) ∧
    (∀ req, ∃ added, (createComplaint env st req).state.complaints = st.complaints ++ added) ∧
    (∀ req, ((deleteComplaint env st req).state.complaints).Sublist st.complaints) := by
  refine ⟨fun req => updateComplaint_authorityFields env st req hids,
    fun req => deleteImage_authorityFields env st req hids, ?_, ?_⟩
  · intro req
    rcases createComplaint_complaints env st req with h | ⟨c, h⟩
    · exact ⟨[], by simp [h]⟩
    · exact ⟨[c], h⟩
  · intro req
    unfold deleteComplaint
    cases hone : Complaint.findOne env st req.id req.user with
    | error e => exact List.Sublist.refl _
    | ok found =>
      cases found with
      | none => exact List.Sublist.refl _
      | some complaint =>
        simp only
        rcases hu : unlinkExisting env st.storage complaint.images with ⟨fs', _ | e⟩
        · simp only
          cases hd : env.dbFault .findByIdAndDelete with
          | some e =>
            simp only [Complaint.findByIdAndDelete, hd]
            exact List.Sublist.refl _
          | none =>
            simp only [Complaint.findByIdAndDelete, hd]
            exact removeById_sublist req.id st.complaints
        · exact List.Sublist.refl _

theorem user_routes_keep_authority_fields_witness :
    (∀ req, authorityFields (updateComplaint sampleEnv sampleState req).state =
      authorityFields sampleState) ∧
    (∀ req, authorityFields (deleteImage sampleEnv sampleState req).state =
      authorityFields sampleState) ∧
    (∀ req, ∃ added, (createComplaint sampleEnv sampleState req).state.complaints =
      sampleState.complaints ++ added) ∧
    (∀ req, ((deleteComplaint sampleEnv sampleState req).state.complaints).Sublist
      sampleState.complaints) :=
  user_routes_keep_authority_fields sampleEnv sampleState (by unfold UniqueIds; decide)

/-! ## C22 and C25: priority, and its independence from status -/

/-- C22. For a complaint of the collection, any acting authority and any priority `p` carried
by the body, the priority route answers 200 with the complaint whose priority is `p`; that
complaint replaces the old one in the collection, and its `assignedTo`, status, owner,
images, identifier, title, description, category and location are those of the old one.
(Identifiers are unique and the database call succeeds.) -/
theorem updatePriority_sets_priority_only (env : Env) (st : State) (c : Complaint)
    (actor : Nat) (p : String) (body : Body)
    (hc : c ∈ st.complaints) (hids : UniqueIds st) (hbody : body.priority = some p)
    (hdb : env.dbFault .findByIdAndUpdate = none) :
    ∃ c' : Complaint,
      (updatePriority env st ⟨c._id, body, actor⟩).response =
        some ⟨200, .complaint (some (populate st c'))⟩ ∧
      (updatePriority env st ⟨c._id, body, actor⟩).state.complaints =
        replaceById c._id c' st.complaints ∧
      c' ∈ (updatePriority env st ⟨c._id, body, actor⟩).state.complaints ∧
      c'.priority = p ∧ c'.assignedTo = c.assignedTo ∧ c'.status = c.status ∧
      c'.user = c.user ∧ c'.images = c.images ∧
      c'._id = c._id ∧ c'.title = c.title ∧ c'.description = c.description ∧
      c'.category = c.category ∧ c'.location = c.location := by
  have hfind := find_id_eq_some st hids c hc
  have hstate : (updatePriority env st ⟨c._id, body, actor⟩).state.complaints =
      replaceById c._id { c with priority := p, updatedAt := env.now } st.complaints := by
    simp [updatePriority, Complaint.findByIdAndUpdate, hdb, hfind, hbody]
  refine ⟨{ c with priority := p, updatedAt := env.now },
    ?_, hstate, ?_, rfl, rfl, rfl, rfl, rfl, rfl, rfl, rfl, rfl, rfl⟩
  · simp [updatePriority, Complaint.findByIdAndUpdate, hdb, hfind, hbody, populate]
  · rw [hstate]
    exact mem_replaceById _ _ _ ⟨c, hc, rfl⟩

theorem updatePriority_sets_priority_only_witness :
    ∃ c' : Complaint,
      (updatePriority sampleEnv sampleState
        ⟨complaintTwo._id, { emptyBody with priority := some "Low" }, 9⟩).response =
        some ⟨200, .complaint (some (populate sampleState c'))⟩ ∧
      (updatePriority sampleEnv sampleState
        ⟨complaintTwo._id, { emptyBody with priority := some "Low" }, 9⟩).state.complaints =
        replaceById complaintTwo._id c' sampleState.complaints ∧
      c' ∈ (updatePriority sampleEnv sampleState
        ⟨complaintTwo._id, { emptyBody with priority := some "Low" }, 9⟩).state.complaints ∧
      c'.priority = "Low" ∧ c'.assignedTo = complaintTwo.assignedTo ∧
      c'.status = complaintTwo.status ∧
      c'.user = complaintTwo.user ∧ c'.images = complaintTwo.images ∧
      c'._id = complaintTwo._id ∧ c'.title = complaintTwo.title ∧
      c'.description = complaintTwo.description ∧
      c'.category = complaintTwo.category ∧ c'.location = complaintTwo.location :=
  updatePriority_sets_priority_only sampleEnv sampleState complaintTwo 9 "Low"
    { emptyBody with priority := some "Low" } (by decide) (by unfold UniqueIds; decide)
    rfl rfl

theorem replaceById_replaceById (id : Nat) (c₁ c₂ : Complaint) (h : c₁._id = id)
    (l : List Complaint) :
    replaceById id c₂ (replaceById id c₁ l) = replaceById id c₂ l := by
  induction l with
  | nil => simp [replaceById]
  | cons x xs ih =>
    by_cases hx : x._id = id
    · simp [replaceById, hx, h]
    · simp [replaceById, hx, ih]

theorem map_replaceById_congr {α : Type} (f : Complaint → α) (id : Nat) (c₁ c₂ : Complaint)
    (h : f c₁ = f c₂) (l : List Complaint) :
    (replaceById id c₁ l).map f = (replaceById id c₂ l).map f := by
  induction l with
  | nil => simp [replaceById]
  | cons x xs ih =>
    by_cases hx : x._id = id
    · simp [replaceById, hx, h]
    · simp [replaceById, hx, ih]

/-- The state after a status update that succeeds. -/
theorem updateStatus_state (env : Env) (st : State) (c : Complaint) (actor : Nat)
    (s : String) (body : Body) (hc : c ∈ st.complaints) (hids : UniqueIds st)
    (hbody : body.status = some s) (hdb : env.dbFault .findByIdAndUpdate = none) :
    (updateStatus env st ⟨c._id, body, actor⟩).state =
      { st with
        complaints := replaceById c._id
          { c with status := s, assignedTo := some actor, updatedAt := env.now }
          st.complaints } := by
  simp [updateStatus, Complaint.findByIdAndUpdate, hdb, find_id_eq_some st hids c hc, hbody]

/-- The state after a priority update that succeeds. -/
theorem updatePriority_state (env : Env) (st : State) (c : Complaint) (actor : Nat)
    (p : String) (body : Body) (hc : c ∈ st.complaints) (hids : UniqueIds st)
    (hbody : body.priority = some p) (hdb : env.dbFault .findByIdAndUpdate = none) :
    (updatePriority env st ⟨c._id, body, actor⟩).state =
      { st with
        complaints := replaceById c._id { c with priority := p, updatedAt := env.now }
          st.complaints } := by
  simp [updatePriority, Complaint.findByIdAndUpdate, hdb, find_id_eq_some st hids c hc, hbody]

theorem uniqueIds_replaceById (st : State) (hids : UniqueIds st) (id : Nat) (c' : Complaint)
    (h : c'._id = id) :
    UniqueIds { st with complaints := replaceById id c' st.complaints } := by
  unfold UniqueIds
  simp only
  rw [map_id_replaceById id c' h]
  exact hids

/-- Priority first, then status: the complaint ends with both values and the assignee. -/
theorem priority_then_status (env₁ env₂ : Env) (st : State) (c : Complaint) (actor : Nat)
    (s p : String) (bodyS bodyP : Body) (hc : c ∈ st.complaints) (hids : UniqueIds st)
    (hS : bodyS.status = some s) (hP : bodyP.priority = some p)
    (h₁ : env₁.dbFault .findByIdAndUpdate = none)
    (h₂ : env₂.dbFault .findByIdAndUpdate = none) :
    (updateStatus env₂ (updatePriority env₁ st ⟨c._id, bodyP, actor⟩).state
        ⟨c._id, bodyS, actor⟩).state.complaints =
      replaceById c._id
        { c with status := s, priority := p, assignedTo := some actor, updatedAt := env₂.now }
        st.complaints := by
  rw [updatePriority_state env₁ st c actor p bodyP hc hids hP h₁]
  have hmem : ({ c with priority := p, updatedAt := env₁.now } : Complaint) ∈
      replaceById c._id { c with priority := p, updatedAt := env₁.now } st.complaints :=
    mem_replaceById _ _ _ ⟨c, hc, rfl⟩
  have hids₁ := uniqueIds_replaceById st hids c._id
    { c with priority := p, updatedAt := env₁.now } rfl
  have h := updateStatus_state env₂ _ { c with priority := p, updatedAt := env₁.now } actor s
    bodyS hmem hids₁ hS h₂
  simp only at h
  rw [h]
  show replaceById _ _ (replaceById _ _ _) = _
  apply replaceById_replaceById
  rfl

/-- Status first, then priority: the complaint ends with both values and the assignee. -/
theorem status_then_priority (env₁ env₂ : Env) (st : State) (c : Complaint) (actor : Nat)
    (s p : String) (bodyS bodyP : Body) (hc : c ∈ st.complaints) (hids : UniqueIds st)
    (hS : bodyS.status = some s) (hP : bodyP.priority = some p)
    (h₁ : env₁.dbFault .findByIdAndUpdate = none)
    (h₂ : env₂.dbFault .findByIdAndUpdate = none) :
    (updatePriority env₂ (updateStatus env₁ st ⟨c._id, bodyS, actor⟩).state
        ⟨c._id, bodyP, actor⟩).state.complaints =
      replaceById c._id
        { c with status := s, priority := p, assignedTo := some actor, updatedAt := env₂.now }
        st.complaints := by
  rw [updateStatus_state env₁ st c actor s bodyS hc hids hS h₁]
  have hmem : ({ c with status := s, assignedTo := some actor, updatedAt := env₁.now } :
      Complaint) ∈
      replaceById c._id
        { c with status := s, assignedTo := some actor, updatedAt := env₁.now }
        st.complaints :=
    mem_replaceById _ _ _ ⟨c, hc, rfl⟩
  have hids₁ := uniqueIds_replaceById st hids c._id
    { c with status := s, assignedTo := some actor, updatedAt := env₁.now } rfl
  have h := updatePriority_state env₂ _
    { c with status := s, assignedTo := some actor, updatedAt := env₁.now } actor p
    bodyP hmem hids₁ hP h₂
  simp only at h
  rw [h]
  show replaceById _ _ (replaceById _ _ _) = _
  apply replaceById_replaceById
  rfl

/-- C25. For a complaint of the collection, an acting authority, a status `s` and a priority
`p`: setting the priority and then the status leaves the same collection, apart from the
last-modified timestamp of that complaint, as setting the status and then the priority; in
both orders the complaint ends with status `s`, priority `p` and the actor as assignee. The
four requests may be served at different times. (Identifiers are unique and the database
calls succeed.) -/
theorem status_priority_commute (envA₁ envA₂ envB₁ envB₂ : Env) (st : State) (c : Complaint)
    (actor : Nat) (s p : String) (bodyS bodyP : Body)
    (hc : c ∈ st.complaints) (hids : UniqueIds st)
    (hS : bodyS.status = some s) (hP : bodyP.priority = some p)
    (hA₁ : envA₁.dbFault .findByIdAndUpdate = none)
    (hA₂ : envA₂.dbFault .findByIdAndUpdate = none)
    (hB₁ : envB₁.dbFault .findByIdAndUpdate = none)
    (hB₂ : envB₂.dbFault .findByIdAndUpdate = none) :
    (updateStatus envA₂ (updatePriority envA₁ st ⟨c._id, bodyP, actor⟩).state
        ⟨c._id, bodyS, actor⟩).state.complaints.map forgetModified =
      (updatePriority envB₂ (updateStatus envB₁ st ⟨c._id, bodyS, actor⟩).state
        ⟨c._id, bodyP, actor⟩).state.complaints.map forgetModified ∧
    imagesOf (updateStatus envA₂ (updatePriority envA₁ st ⟨c._id, bodyP, actor⟩).state
        ⟨c._id, bodyS, actor⟩).state c._id = some c.images ∧
    (updateStatus envA₂ (updatePriority envA₁ st ⟨c._id, bodyP, actor⟩).state
        ⟨c._id, bodyS, actor⟩).state.complaints =
      replaceById c._id
        { c with status := s, priority := p, assignedTo := some actor, updatedAt := envA₂.now }
        st.complaints := by
  have hA := priority_then_status envA₁ envA₂ st c actor s p bodyS bodyP hc hids hS hP hA₁ hA₂
  have hB := status_then_priority envB₁ envB₂ st c actor s p bodyS bodyP hc hids hS hP hB₁ hB₂
  refine ⟨?_, ?_, hA⟩
  · rw [hA, hB]
    apply map_replaceById_congr
    rfl
  · have hf := find_replaceById c._id
      { c with status := s, priority := p, assignedTo := some actor, updatedAt := envA₂.now }
      rfl st.complaints ⟨c, hc, rfl⟩
    simp [imagesOf, hA, hf]

theorem status_priority_commute_witness :
    (updateStatus lockedFileEnv (updatePriority sampleEnv sampleState
          ⟨complaintOne._id, { emptyBody with priority := some "High" }, 9⟩).state
        ⟨complaintOne._id, { emptyBody with status := some "Resolved" }, 9⟩).state.complaints.map
        forgetModified =
      (updatePriority sampleEnv (updateStatus lockedFileEnv sampleState
          ⟨complaintOne._id, { emptyBody with status := some "Resolved" }, 9⟩).state
        ⟨complaintOne._id, { emptyBody with priority := some "High" }, 9⟩).state.complaints.map
        forgetModified ∧
    imagesOf (updateStatus lockedFileEnv (updatePriority sampleEnv sampleState
          ⟨complaintOne._id, { emptyBody with priority := some "High" }, 9⟩).state
        ⟨complaintOne._id, { emptyBody with status := some "Resolved" }, 9⟩).state
        complaintOne._id = some complaintOne.images ∧
    (updateStatus lockedFileEnv (updatePriority sampleEnv sampleState
          ⟨complaintOne._id, { emptyBody with priority := some "High" }, 9⟩).state
        ⟨complaintOne._id, { emptyBody with status := some "Resolved" }, 9⟩).state.complaints =
      replaceById complaintOne._id
        { complaintOne with
          status := "Resolved", priority := "High", assignedTo := some 9,
          updatedAt := lockedFileEnv.now }
        sampleState.complaints :=
  status_priority_commute sampleEnv lockedFileEnv lockedFileEnv sampleEnv sampleState
    complaintOne 9 "Resolved" "High" { emptyBody with status := some "Resolved" }
    { emptyBody with priority := some "High" } (by decide) (by unfold UniqueIds; decide)
    rfl rfl rfl rfl rfl rfl

/-! ## C24 and C26: order of screening, and scores that are missing -/

/-- C24. When all earlier images pass and the next image, with scores `ai` and `sim`, exceeds a
threshold, the create route answers 400 with the reason of that image, the AI-generated
reason if `ai` is above 0.75 (also when `sim` is above 0.7) and the internet-image reason
otherwise; the images passed to the screening service are the earlier ones and that image,
in submission order, and none of the images after it, whatever they are. (The rejected file
is on disk and can be deleted.) -/
theorem screening_stops_at_first_failure (env : Env) (st : State) (req : CreateRequest)
    (pre post : List UploadedFile) (file : UploadedFile) (ai sim : ℚ)
    (hfiles : req.files = some (pre ++ file :: post))
    (hpre : ∀ g ∈ pre, Passes env g)
    (hscored : Scored env file ai sim)
    (hfail : ai > 0.75 ∨ sim > 0.7)
    (hdel : Deletable env st.storage file.path) :
    (createComplaint env st req).response =
        some ⟨400, .failure (if ai > 0.75 then aiGeneratedMessage else plagiarizedMessage)⟩ ∧
      (createComplaint env st req).analysed = (pre ++ [file]).map (fun g => g.path) ∧
      (createComplaint env st req).state.complaints = st.complaints := by
  obtain ⟨r, hr, hs⟩ := hscored
  by_cases hai : ai > 0.75
  · have h1 : ai > aiThreshold := by rw [aiThreshold_eq]; exact hai
    have hscreen : screenImages env st.storage (pre ++ file :: post) =
        (.rejected (st.storage.filter fun q => q ≠ file.path) aiGeneratedMessage,
          (pre.map fun g => g.path) ++ [file.path]) := by
      rw [screenImages_append_of_passes env st.storage pre (file :: post) hpre]
      simp [screenImages, hr, hs, greaterThan, h1, unlinkSync_of_deletable env _ _ hdel]
    simp [createComplaint, hfiles, hscreen, hai]
  · have hsim : sim > 0.7 := hfail.resolve_left hai
    have h1 : ¬ ai > aiThreshold := by rw [aiThreshold_eq]; exact hai
    have h2 : sim > similarityThreshold := by rw [similarityThreshold_eq]; exact hsim
    have hscreen : screenImages env st.storage (pre ++ file :: post) =
        (.rejected (st.storage.filter fun q => q ≠ file.path) plagiarizedMessage,
          (pre.map fun g => g.path) ++ [file.path]) := by
      rw [screenImages_append_of_passes env st.storage pre (file :: post) hpre]
      simp [screenImages, hr, hs, greaterThan, h1, h2, unlinkSync_of_deletable env _ _ hdel]
    simp [createComplaint, hfiles, hscreen, hai]

theorem screening_stops_at_first_failure_witness :
    (createComplaint sampleEnv uploadedState
        ⟨some [photoA, photoC, photoB, photoE], sampleBody, 1⟩).response =
        some ⟨400, .failure
          (if mkRat 3 4 > (0.75 : ℚ) then aiGeneratedMessage else plagiarizedMessage)⟩ ∧
      (createComplaint sampleEnv uploadedState
        ⟨some [photoA, photoC, photoB, photoE], sampleBody, 1⟩).analysed =
        ([photoA] ++ [photoC]).map (fun g => g.path) ∧
      (createComplaint sampleEnv uploadedState
        ⟨some [photoA, photoC, photoB, photoE], sampleBody, 1⟩).state.complaints =
        uploadedState.complaints :=
  screening_stops_at_first_failure sampleEnv uploadedState
    ⟨some [photoA, photoC, photoB, photoE], sampleBody, 1⟩ [photoA] [photoB, photoE] photoC
    (mkRat 3 4) (mkRat 4 5) rfl
    (by
      intro g hg
      rw [List.mem_singleton] at hg
      subst hg
      exact photoA_passes)
    ⟨_, rfl, rfl⟩ (Or.inr (by norm_num)) ⟨by decide, rfl⟩

/-- Reading the two scores is reading the output object and then one score per entry. -/
theorem readScores_eq (r : Json) :
    readScores r = (do
      let output ← readOutput r
      let aiScore ← readScore output "ai_generated"
      let similarity ← readScore output "image_similarity"
      pure (aiScore, similarity)) := by
  simp only [readScores, readOutput, readScore, bind_assoc, pure_bind]

/-- A score that counts as zero is read as the number 0. -/
theorem readScore_of_zeroScored (output : List (String × Json)) (name : String)
    (h : ZeroScored output name) :
    readScore (some (.obj output)) name = .ok (some (.num 0)) := by
  rcases h with h | ⟨entry, h, hscore⟩
  · simp [readScore, getProp, h, optChain, orZero, truthy, bind, Except.bind, pure, Except.pure]
  · rcases hscore with h' | h' | h' <;>
      simp [readScore, getProp, h, h', optChain, orZero, truthy, bind, Except.bind, pure,
        Except.pure]

/-- Reading a score from an output object never throws. -/
theorem readScore_obj_ok (output : List (String × Json)) (name : String) :
    ∃ v, readScore (some (.obj output)) name = .ok v := by
  have hchain : ∀ v : JsVal, ∃ w, optChain v "score" = .ok w := by
    intro v
    cases v with
    | none => exact ⟨none, rfl⟩
    | some j => cases j <;> exact ⟨_, rfl⟩
  obtain ⟨w, hw⟩ := hchain (output.lookup name)
  exact ⟨orZero w, by simp [readScore, getProp, hw, bind, Except.bind, pure, Except.pure]⟩

theorem zero_not_greaterThan (loose : Json → ℚ → Bool) :
    greaterThan loose (some (.num 0)) aiThreshold = false ∧
      greaterThan loose (some (.num 0)) similarityThreshold = false := by
  constructor
  · simp only [greaterThan, aiThreshold_eq, decide_eq_false_iff_not]
    norm_num
  · simp only [greaterThan, similarityThreshold_eq, decide_eq_false_iff_not]
    norm_num

/-- C26. For an answer of the screening service with the expected path
`status[0].response.output[0]`, the output being an object: when the `ai_generated` entry is
lacking, or its score is missing, `null` or 0, the AI-generation score is read as 0 and is
not above the threshold; likewise for the `image_similarity` entry; and an image for which
both hold, in particular one whose output lacks both entries, is accepted: the loop goes on
with the next file. -/
theorem missing_scores_pass (env : Env) (fs : Storage) (file : UploadedFile)
    (rest : List UploadedFile) (r : Json) (output : List (String × Json))
    (hr : env.analyzeImage file.path = .ok r)
    (hout : readOutput r = .ok (some (.obj output))) :
    (ZeroScored output "ai_generated" →
      ∃ similarity, readScores r = .ok (some (.num 0), similarity) ∧
        greaterThan env.looseGreater (some (.num 0)) aiThreshold = false) ∧
    (ZeroScored output "image_similarity" →
      ∃ aiScore, readScores r = .ok (aiScore, some (.num 0)) ∧
        greaterThan env.looseGreater (some (.num 0)) similarityThreshold = false) ∧
    (ZeroScored output "ai_generated" → ZeroScored output "image_similarity" →
      screenImages env fs (file :: rest) =
        ((screenImages env fs rest).1, file.path :: (screenImages env fs rest).2)) := by
  have hzero := zero_not_greaterThan env.looseGreater
  refine ⟨?_, ?_, ?_⟩
  · intro hai
    obtain ⟨v, hv⟩ := readScore_obj_ok output "image_similarity"
    refine ⟨v, ?_, hzero.1⟩
    rw [readScores_eq, hout]
    simp [readScore_of_zeroScored output _ hai, hv, bind, Except.bind, pure, Except.pure]
  · intro hsim
    obtain ⟨v, hv⟩ := readScore_obj_ok output "ai_generated"
    refine ⟨v, ?_, hzero.2⟩
    rw [readScores_eq, hout]
    simp [readScore_of_zeroScored output _ hsim, hv, bind, Except.bind, pure, Except.pure]
  · intro hai hsim
    have hs : readScores r = .ok (some (.num 0), some (.num 0)) := by
      rw [readScores_eq, hout]
      simp [readScore_of_zeroScored output _ hai, readScore_of_zeroScored output _ hsim, bind,
        Except.bind, pure, Except.pure]
    simp [screenImages, hr, hs, hzero.1, hzero.2]

theorem missing_scores_pass_witness :
    (ZeroScored [("time", .num 0), ("classes", .arr [])] "ai_generated" →
      ∃ similarity, readScores bareAnswer = .ok (some (.num 0), similarity) ∧
        greaterThan bareAnswerEnv.looseGreater (some (.num 0)) aiThreshold = false) ∧
    (ZeroScored [("time", .num 0), ("classes", .arr [])] "image_similarity" →
      ∃ aiScore, readScores bareAnswer = .ok (aiScore, some (.num 0)) ∧
        greaterThan bareAnswerEnv.looseGreater (some (.num 0)) similarityThreshold = false) ∧
    (ZeroScored [("time", .num 0), ("classes", .arr [])] "ai_generated" →
      ZeroScored [("time", .num 0), ("classes", .arr [])] "image_similarity" →
      screenImages bareAnswerEnv uploadedState.storage (photoA :: [photoB]) =
        ((screenImages bareAnswerEnv uploadedState.storage [photoB]).1,
          photoA.path :: (screenImages bareAnswerEnv uploadedState.storage [photoB]).2)) :=
  missing_scores_pass bareAnswerEnv uploadedState.storage photoA [photoB] bareAnswer
    [("time", .num 0), ("classes", .arr [])] rfl rfl

/-! ## C23: the fields a created complaint carries -/

/-- The create route never reads the coordinates of the body. -/
theorem createComplaint_coordinates_irrelevant (env : Env) (st : State) (req : CreateRequest)
    (coordinates : Option String) :
    createComplaint env st { req with body := { req.body with coordinates := coordinates } } =
      createComplaint env st req :=
  rfl

/-- C23 (the code at the failing input). A valid request with one passing image carries the
coordinates sent by the form. The request is answered 201 and the record has the title,
description, category and location of the request, but nothing of the coordinates: the
record has no such field, and the same request with other coordinates, or with none, leaves
exactly the same state. -/
theorem createComplaint_drops_coordinates :
    (createComplaint sampleEnv uploadedState ⟨some [photoA], locatedBody, 1⟩).state.complaints =
        [{ _id := 0, title := "Pothole", description := "Deep pothole",
           category := "Infrastructure", status := "Pending", location := "Main St",
           images := ["a.jpg"], user := 1, assignedTo := none, priority := "Medium",
           createdAt := 100, updatedAt := 100 }] ∧
      (createComplaint sampleEnv uploadedState ⟨some [photoA], locatedBody, 1⟩).response.map
        (fun r => r.status) = some 201 ∧
      createComplaint sampleEnv uploadedState ⟨some [photoA], locatedBody, 1⟩ =
        createComplaint sampleEnv uploadedState
          ⟨some [photoA], { locatedBody with coordinates := some "elsewhere" }, 1⟩ ∧
      createComplaint sampleEnv uploadedState ⟨some [photoA], locatedBody, 1⟩ =
        createComplaint sampleEnv uploadedState
          ⟨some [photoA], { locatedBody with coordinates := none }, 1⟩ := by
  decide

/-! ## C27 and C28: the filter of the authority dashboard -/

/-- C27. For every list of complaints and all filter values for status, category and
priority, with the search box empty (and any date range), `applyFilters` returns the
complaints of the list that match the filter the server builds from the same three values,
in the order of the list; the empty string means no constraint on both sides. -/
theorem applyFilters_agrees_with_server (js : JsLib) (complaints : List PopulatedComplaint)
    (status category priority dateRange : String) :
    applyFilters js complaints
        { status := status, category := category, priority := priority,
          dateRange := dateRange, search := "" } =
      complaints.filter fun complaint =>
        (buildFilter ⟨some status, some category, some priority⟩).matches complaint.doc := by
  by_cases hs : status = "" <;> by_cases hc : category = "" <;>
    by_cases hp : priority = "" <;>
    simp [applyFilters, buildFilter, Filter.matches, given, hs, hc, hp, List.filter_filter,
      Bool.and_comm, Bool.and_left_comm]

/-- C28. `applyFilters` never reads the date range: two filter states that differ only in
`dateRange` give the same list. -/
theorem applyFilters_ignores_dateRange (js : JsLib) (complaints : List PopulatedComplaint)
    (filters : DashboardFilters) (dateRange : String) :
    applyFilters js complaints { filters with dateRange := dateRange } =
      applyFilters js complaints filters :=
  rfl

/-! ## C29: the resolution rate -/

/-- C29 (the code at the failing input). For the empty list the card shows `NaN%`: the
quotient is 0 divided by 0. The authority dashboard passes the empty list when no complaint
matches, as with the status filter `In Progress` on the sample complaints. -/
theorem resolutionRate_empty_is_NaN (js : JsLib) :
    resolutionRate js [] = "NaN%" ∧
      applyFilters js sampleList
        { status := "In Progress", category := "", priority := "", dateRange := "",
          search := "" } = [] ∧
      resolutionRate js (applyFilters js sampleList
        { status := "In Progress", category := "", priority := "", dateRange := "",
          search := "" }) = "NaN%" := by
  have h : applyFilters js sampleList
      { status := "In Progress", category := "", priority := "", dateRange := "",
        search := "" } = [] := by
    rw [applyFilters_agrees_with_server]
    decide
  refine ⟨rfl, h, ?_⟩
  rw [h]
  rfl

/-! ## C30: editing a complaint in the user dashboard -/

/-- C30. For every complaint as the backend returns it, whatever the state of the dashboard,
`handleEdit` sets the coordinates of the form to `null`, and `handleSubmit` right after it
sends no request; more generally `handleSubmit` sends no request whenever the coordinates of
the form are falsy, whether a complaint is being edited or not. -/
theorem edit_then_submit_sends_nothing (js : JsLib) (s : UserDashboard)
    (p : PopulatedComplaint) :
    (handleEdit js s (received p)).formData.coordinates = some .null ∧
      handleSubmit js (handleEdit js s (received p)) = none ∧
      ∀ s' : UserDashboard, truthy s'.formData.coordinates = false →
        handleSubmit js s' = none := by
  refine ⟨rfl, ?_, ?_⟩
  · simp [handleSubmit, handleEdit, received, truthy]
  · intro s' h
    simp [handleSubmit, h]

end HA2
